import Mathlib

/-!
# rps-bot: the rock-paper-scissors session machine of `src/discord-bot.js`

A shallow embedding of the game logic of the bot: the registry `games`, the
functions `startGame`, `updateScore`, `updateRound`, `handleChoice`,
`resetRound`, `checkGameEnd`, `incrementWin`, `displayLeaderboard` and the
`messageCreate` handler, as pure functions passing an explicit `State`.

Modelling conventions.
* Discord ids (user ids, channel ids) are snowflake strings; the program only
  compares them for equality and uses them as property keys, so they are
  natural numbers here.  Snowflakes are far above the array-index range, hence
  JavaScript keeps such keys in insertion order.
* JavaScript numbers that count (scores, rounds) and SQLite integers (wins) are
  natural numbers; the counters of the program only ever grow by one from 0 or
  1, far below the bounds 2^53 and 2^63 where the two number systems stop being
  exact.
* An object mutated through a reference (`game`) is passed by value, and the
  function that mutates it returns its final value and writes it back to the
  registry entry of the same channel (`syncGame`).
* Every outbound text (`channel.send`, `player.send`, `message.reply`) is
  appended to the log `State.sent`.
-/

namespace RpsBot

/-! ## Plain JavaScript objects used as maps -/

/-- A JavaScript object used as a map from ids to values: its own properties in
insertion order. -/
abbrev Obj (α : Type) := List (Nat × α)

/-- Property read `o[k]`; `none` stands for `undefined`. -/
def objGet {α : Type} (o : Obj α) (k : Nat) : Option α :=
  (o.find? (fun kv => decide (kv.1 = k))).map Prod.snd

/-- Property write `o[k] = v`: an existing property keeps its place, a new one is
added last. -/
def objSet {α : Type} (o : Obj α) (k : Nat) (v : α) : Obj α :=
  if (objGet o k).isSome then o.map (fun kv => if kv.1 = k then (k, v) else kv)
  else o ++ [(k, v)]

/-- The keys of `Object.keys(o)`. -/
def objKeys {α : Type} (o : Obj α) : List Nat :=
  o.map Prod.fst

/-- The increment `o[k]++` on a property holding a number.  (On a missing property
JavaScript would store `NaN`; every `scores` object is built by `startGame` with
both participants as keys and the results below assume or derive that the keys
are present.) -/
def objIncr (o : Obj Nat) (k : Nat) : Obj Nat :=
  o.map (fun kv => if kv.1 = k then (kv.1, kv.2 + 1) else kv)

/-- How a template literal prints a score read from an object. -/
def showNum : Option Nat → String
  | some n => toString n
  | none => "undefined"

/-! ## Data model -/

/-- A discord.js user: the players and the authors of messages. -/
structure User where
  id : Nat
  username : String
  bot : Bool
deriving DecidableEq, Repr

/-- A discord.js channel; `type` 0 is a guild text channel, 1 a direct-message
channel. -/
structure Channel where
  id : Nat
  type : Nat
deriving DecidableEq, Repr

/-- The session object stored in `games` (lines 33-40). -/
structure Game where
  player1 : User
  player2 : User
  scores : Obj Nat
  round : Nat
  choices : Obj String
  channel : Channel
deriving DecidableEq, Repr

/-- A row of the SQLite table `leaderboard (userId PRIMARY KEY, username, wins)`. -/
structure Row where
  userId : Nat
  username : String
  wins : Nat
deriving DecidableEq, Repr

/-- An outbound text. -/
inductive Sent where
  | toChannel (channelId : Nat) (text : String)
  | toUser (userId : Nat) (text : String)
  | reply (channelId : Nat) (userId : Nat) (text : String)
deriving DecidableEq, Repr

/-- The mutable state of the process: the registry `games`, whose entry under the
key `channel.id` is the session whose `channel` field is that channel (the only
write is `games[channel.id] = {..., channel}` in `startGame`), listed in insertion
order; the rows of the table `leaderboard` in insertion order; and the texts sent
so far. -/
structure State where
  games : List Game
  db : List Row
  sent : List Sent
deriving DecidableEq, Repr

/-- The state at process start with an empty leaderboard table. -/
def State.init : State :=
  { games := [], db := [], sent := [] }

/-! ## The registry `games` -/

/-- The read `games[id]`. -/
def gamesGet (games : List Game) (id : Nat) : Option Game :=
  games.find? (fun g => decide (g.channel.id = id))

/-- The write `games[game.channel.id] = game`. -/
def gamesSet (games : List Game) (game : Game) : List Game :=
  if (gamesGet games game.channel.id).isSome then
    games.map (fun g => if g.channel.id = game.channel.id then game else g)
  else games ++ [game]

/-- The statement `delete games[id]`. -/
def gamesDelete (games : List Game) (id : Nat) : List Game :=
  games.filter (fun g => decide (g.channel.id ≠ id))

/-- A mutation of the session object `game` seen through the registry: the entry
of its channel, when there is one, now shows the new value. -/
def syncGame (game : Game) (s : State) : State :=
  { s with games := s.games.map (fun g => if g.channel.id = game.channel.id then game else g) }

/-- The call `channel.send(text)`. -/
def channelSend (channel : Channel) (text : String) (s : State) : State :=
  { s with sent := s.sent ++ [Sent.toChannel channel.id text] }

/-- The call `player.send(text)`. -/
def userSend (player : User) (text : String) (s : State) : State :=
  { s with sent := s.sent ++ [Sent.toUser player.id text] }

/-! ## The functions of the bot -/

/-- Lines 52-56.  (With no session under `channel.id` JavaScript throws; both call
sites run with the session registered.) -/
def updateScore (channel : Channel) (s : State) : State :=
  match gamesGet s.games channel.id with
  | some game =>
    channelSend channel
      ("Score: " ++ game.player1.username ++ " " ++ showNum (objGet game.scores game.player1.id)
        ++ " - " ++ showNum (objGet game.scores game.player2.id) ++ " " ++ game.player2.username) s
  | none => s

/-- Lines 59-62.  (With no session under `channel.id` JavaScript throws; both call
sites run with the session registered.) -/
def updateRound (channel : Channel) (s : State) : State :=
  match gamesGet s.games channel.id with
  | some game => channelSend channel ("Round " ++ toString game.round) s
  | none => s

/-- Lines 32-49. -/
def startGame (player1 player2 : User) (channel : Channel) (s : State) : State :=
  let game : Game :=
    { player1 := player1
      player2 := player2
      scores := objSet (objSet [] player1.id 0) player2.id 0
      round := 1
      choices := []
      channel := channel }
  let s1 := { s with games := gamesSet s.games game }
  let s2 := channelSend channel
    ("Game started between " ++ player1.username ++ " and " ++ player2.username
      ++ "! Moves should be sent in DMs.") s1
  let s3 := userSend player1
    "Game started! Send your move (`!rock`, `!paper`, or `!scissors`) here in DMs." s2
  let s4 := userSend player2
    "Game started! Send your move (`!rock`, `!paper`, or `!scissors`) here in DMs." s3
  updateRound channel (updateScore channel s4)

/-- The query `SELECT * FROM leaderboard WHERE userId = ?` read with `.get`: the
first matching row, `none` for `undefined`. -/
def selectUser (db : List Row) (userId : Nat) : Option Row :=
  db.find? (fun r => decide (r.userId = userId))

/-- Lines 115-123: `UPDATE leaderboard SET wins = wins + 1 WHERE userId = ?` when
the row exists, `INSERT ... VALUES (userId, username, 1)` otherwise. -/
def incrementWin (userId : Nat) (username : String) (db : List Row) : List Row :=
  match selectUser db userId with
  | some _ => db.map (fun r => if r.userId = userId then { r with wins := r.wins + 1 } else r)
  | none => db ++ [{ userId := userId, username := username, wins := 1 }]

/-- Lines 101-112. -/
def checkGameEnd (game : Game) (s : State) : State :=
  let maxScore := 3
  if objGet game.scores game.player1.id = some maxScore
      ∨ objGet game.scores game.player2.id = some maxScore then
    let winner :=
      if objGet game.scores game.player1.id = some maxScore then game.player1 else game.player2
    let s1 := { s with db := incrementWin winner.id winner.username s.db }
    let s2 := channelSend game.channel
      ("Congratulations " ++ winner.username ++ ", you won the game!") s1
    { s2 with games := gamesDelete s2.games game.channel.id }
  else s

/-- Lines 94-98; returns the final value of `game` with the state. -/
def resetRound (game : Game) (s : State) : Game × State :=
  let game1 := { game with choices := [], round := game.round + 1 }
  (game1, updateRound game1.channel (syncGame game1 s))

/-- Who wins a round. -/
inductive RoundWinner where
  | tie
  | player1
  | player2
deriving DecidableEq, Repr

/-- The decision of lines 73-83 on the two values read from `choices`
(`none` is `undefined`). -/
def roundWinner (p1Choice p2Choice : Option String) : RoundWinner :=
  if p1Choice = p2Choice then RoundWinner.tie
  else if (p1Choice = some "rock" ∧ p2Choice = some "scissors")
      ∨ (p1Choice = some "scissors" ∧ p2Choice = some "paper")
      ∨ (p1Choice = some "paper" ∧ p2Choice = some "rock") then RoundWinner.player1
  else RoundWinner.player2

/-- Lines 69-83: the score update and the text `roundResult`. -/
def scoreRound (game : Game) : Game × String :=
  match roundWinner (objGet game.choices game.player1.id)
      (objGet game.choices game.player2.id) with
  | RoundWinner.tie => (game, "It's a tie!")
  | RoundWinner.player1 =>
    ({ game with scores := objIncr game.scores game.player1.id },
      game.player1.username ++ " wins this round!")
  | RoundWinner.player2 =>
    ({ game with scores := objIncr game.scores game.player2.id },
      game.player2.username ++ " wins this round!")

/-- Lines 65-91.  `game` is the value of a session object of the registry; the
result is the final value of that object and the new state. -/
def handleChoice (player : User) (choice : String) (game : Game) (s : State) : Game × State :=
  let game1 := { game with choices := objSet game.choices player.id choice }
  let s1 := syncGame game1 s
  if (objKeys game1.choices).length = 2 then
    let scored := scoreRound game1
    let s2 := channelSend game1.channel scored.2 (syncGame scored.1 s1)
    let r := resetRound scored.1 s2
    (r.1, checkGameEnd r.1 (updateScore game1.channel r.2))
  else (game1, s1)


/-! ## The message handler -/

/-- The closed list of move tokens of line 152. -/
def validMoves : List String := ["rock", "paper", "scissors"]

/-- A discord.js message: `mentions` lists `message.mentions.users.values()`. -/
structure Message where
  author : User
  content : String
  channel : Channel
  mentions : List User
deriving DecidableEq, Repr

/-- The call `message.reply(text)`. -/
def messageReply (message : Message) (text : String) (s : State) : State :=
  { s with sent := s.sent ++ [Sent.reply message.channel.id message.author.id text] }

/-- The test `content.startsWith(pre)`. -/
def jsStartsWith (content pre : String) : Bool :=
  pre.toList.isPrefixOf content.toList

/-- The two string methods of the JavaScript runtime that turn the text of a direct
message into a move token, `content.slice(1)` and `.toLowerCase()`.  They work on
UTF-16 code units and on the Unicode case tables, so the handler takes them as
parameters and every result below holds for whatever functions they are. -/
structure StringOps where
  slice1 : String → String
  toLowerCase : String → String

/-- The two methods on ASCII text: drop the first character, lower-case the
letters A-Z. -/
def StringOps.ascii : StringOps :=
  { slice1 := fun t => String.mk (t.toList.drop 1)
    toLowerCase := fun t => String.mk (t.toList.map Char.toLower) }

/-- The query `SELECT * FROM leaderboard ORDER BY wins DESC LIMIT 10`.  SQL leaves
the order of rows with equal wins open; here they keep their insertion order. -/
def selectTop10 (db : List Row) : List Row :=
  (db.insertionSort (fun a b => a.wins ≥ b.wins)).take 10

/-- Lines 126-133. -/
def displayLeaderboard (channel : Channel) (s : State) : State :=
  let leaderboard := selectTop10 s.db
  let leaderboardMessage :=
    if leaderboard.length ≠ 0 then
      "🏆 **Leaderboard** 🏆\n" ++ "\n".intercalate
        (leaderboard.enum.map (fun ie =>
          toString (ie.1 + 1) ++ ". " ++ ie.2.username ++ " - " ++ toString ie.2.wins ++ " wins"))
    else "The leaderboard is empty."
  channelSend channel leaderboardMessage s

/-- Lines 161-166: the body of the reset command. -/
def resetCommand (message : Message) (s : State) : State :=
  if (gamesGet s.games message.channel.id).isSome then
    channelSend message.channel "Game has been reset!"
      { s with games := gamesDelete s.games message.channel.id }
  else messageReply message "No game to reset in this channel." s

/-- Lines 159-172: the reset and leaderboard commands, reached when the handler has
not returned earlier. -/
def guildCommands (message : Message) (s : State) : State :=
  let s1 :=
    if jsStartsWith message.content "!reset" ∧ message.channel.type = 0 then
      resetCommand message s
    else s
  if jsStartsWith message.content "!leaderboard" ∧ message.channel.type = 0 then
    displayLeaderboard message.channel s1
  else s1

/-- Lines 146-157: a direct message is routed to the first session of `games` that
has the author as a participant.  `none` means the handler returned. -/
def directMessage (js : StringOps) (message : Message) (s : State) : Option State :=
  match s.games.find? (fun g =>
      decide (g.player1.id = message.author.id) || decide (g.player2.id = message.author.id)) with
  | none => none
  | some game =>
    let choice := js.toLowerCase (js.slice1 message.content)
    if choice ∈ validMoves then some (handleChoice message.author choice game s).2
    else some (messageReply message
      "Invalid move. Use `!rock`, `!paper`, or `!scissors` to play." s)

/-- Lines 136-173: the `messageCreate` listener. -/
def messageCreate (js : StringOps) (message : Message) (s : State) : State :=
  if message.author.bot then s
  else if jsStartsWith message.content "!start" ∧ message.channel.type = 0
      ∧ message.mentions.length < 2 then
    messageReply message "You need to mention two players to start a game." s
  else
    let s1 :=
      if jsStartsWith message.content "!start" ∧ message.channel.type = 0 then
        match message.mentions with
        | p0 :: p1 :: _ => startGame p0 p1 message.channel s
        | _ => s
      else s
    if message.channel.type = 1 then
      match directMessage js message s1 with
      | none =>
        messageReply message
          ("You're not currently in a game. Start a new game in a server channel with "
            ++ "`!start @player1 @player2`.") s1
      | some s2 => guildCommands message s2
    else guildCommands message s1

/-! ## Reachable states -/

/-- The states reached from an empty registry by calls of `startGame`, of
`handleChoice` on a registered session, and by reset commands. -/
inductive Reachable : State → Prop where
  | init (db : List Row) (sent : List Sent) :
      Reachable { games := [], db := db, sent := sent }
  | startGame {s : State} (player1 player2 : User) (channel : Channel) :
      Reachable s → Reachable (startGame player1 player2 channel s)
  | handleChoice {s : State} (player : User) (choice : String) (game : Game) :
      Reachable s → gamesGet s.games game.channel.id = some game →
      Reachable (handleChoice player choice game s).2
  | reset {s : State} (message : Message) :
      Reachable s → Reachable (resetCommand message s)

/-- The states reached from an empty registry by the message handler. -/
inductive HandlerReachable (js : StringOps) : State → Prop where
  | init (db : List Row) (sent : List Sent) :
      HandlerReachable js { games := [], db := db, sent := sent }
  | message {s : State} (m : Message) :
      HandlerReachable js s → HandlerReachable js (messageCreate js m s)

/-! ## Sample data -/

/-- A sample player. -/
def alice : User := { id := 1, username := "alice", bot := false }

/-- A sample player. -/
def bob : User := { id := 2, username := "bob", bot := false }

/-- A sample player. -/
def carol : User := { id := 3, username := "carol", bot := false }

/-- A sample guild text channel. -/
def arena : Channel := { id := 10, type := 0 }

/-- Another sample guild text channel. -/
def arena2 : Channel := { id := 11, type := 0 }

/-- A session of alice and bob in `arena` with the given scores, round and pending
moves. -/
def sampleGame (score1 score2 round : Nat) (choices : Obj String) : Game :=
  { player1 := alice, player2 := bob, scores := [(1, score1), (2, score2)], round := round,
    choices := choices, channel := arena }

/-- A state whose registry holds just the given session. -/
def sampleState (game : Game) : State :=
  { games := [game], db := [], sent := [] }

/-! ## Predicates used in the statements -/

/-- Exactly one participant of `game` has a pending move and `player`, the other
participant, submits `choice`; `a` is then the move of `player1` and `b` the move of
`player2` in the round. -/
def SecondMove (game : Game) (player : User) (choice a b : String) : Prop :=
  (game.choices = [(game.player1.id, a)] ∧ player.id = game.player2.id ∧ choice = b)
    ∨ (game.choices = [(game.player2.id, b)] ∧ player.id = game.player1.id ∧ choice = a)

instance (game : Game) (player : User) (choice a b : String) :
    Decidable (SecondMove game player choice a b) := by
  unfold SecondMove; infer_instance

/-- The sessions of the registry have both scores present and at most 2. -/
def ScoresBelowTarget (games : List Game) : Prop :=
  ∀ g ∈ games, ∃ n1 n2, objGet g.scores g.player1.id = some n1
    ∧ objGet g.scores g.player2.id = some n2 ∧ n1 ≤ 2 ∧ n2 ≤ 2

/-- The sessions of the registry in which the user id is `player1` or `player2`. -/
def sessionsOf (games : List Game) (userId : Nat) : List Game :=
  games.filter (fun g => decide (g.player1.id = userId) || decide (g.player2.id = userId))

/-- The channel ids under which the sessions of the registry are stored. -/
def gamesKeys (games : List Game) : List Nat :=
  games.map (fun g => g.channel.id)

/-- A start command for alice and bob, sent by carol in `arena`. -/
def startInArena : Message :=
  { author := carol, content := "!start @alice @bob", channel := arena, mentions := [alice, bob] }

/-- A start command for alice and carol, sent by carol in `arena2`. -/
def startInArena2 : Message :=
  { author := carol, content := "!start @alice @carol", channel := arena2,
    mentions := [alice, carol] }

/-- A reset command sent by carol in `arena`. -/
def resetInArena : Message :=
  { author := carol, content := "!reset", channel := arena, mentions := [] }

/-- A direct message of carol with the text `!rock`. -/
def carolRock : Message :=
  { author := carol, content := "!rock", channel := { id := 30, type := 1 }, mentions := [] }

/-- A direct message of alice with the text `!lizard`. -/
def aliceLizard : Message :=
  { author := alice, content := "!lizard", channel := { id := 31, type := 1 }, mentions := [] }

/-- A leaderboard table of three rows. -/
def sampleTable : List Row :=
  [{ userId := 1, username := "alice", wins := 2 }, { userId := 2, username := "bob", wins := 5 },
    { userId := 3, username := "carol", wins := 2 }]

/-- A state without sessions whose leaderboard table is `sampleTable`. -/
def sampleBoard : State :=
  { games := [], db := sampleTable, sent := [] }

/-- The sessions of the registry have fewer than 2 pending moves. -/
def PendingBelowTwo (games : List Game) : Prop :=
  ∀ g ∈ games, (objKeys g.choices).length < 2

/-- The states reached from an empty leaderboard table by calls of `startGame`, of
`handleChoice` on a registered session, by reset commands and by calls of
`incrementWin`. -/
inductive FromEmptyTable : State → Prop where
  | init (games : List Game) (sent : List Sent) :
      FromEmptyTable { games := games, db := [], sent := sent }
  | startGame {s : State} (player1 player2 : User) (channel : Channel) :
      FromEmptyTable s → FromEmptyTable (startGame player1 player2 channel s)
  | handleChoice {s : State} (player : User) (choice : String) (game : Game) :
      FromEmptyTable s → gamesGet s.games game.channel.id = some game →
      FromEmptyTable (handleChoice player choice game s).2
  | reset {s : State} (message : Message) :
      FromEmptyTable s → FromEmptyTable (resetCommand message s)
  | incrementWin {s : State} (userId : Nat) (username : String) :
      FromEmptyTable s → FromEmptyTable { s with db := incrementWin userId username s.db }

/-- The table `db'` keeps every row of `db` in its place, with the same user id and
at least as many wins, and may have further rows after them. -/
def RowsKept (db db' : List Row) : Prop :=
  ∃ kept added, db' = kept ++ added
    ∧ List.Forall₂ (fun r r' => r'.userId = r.userId ∧ r.wins ≤ r'.wins) db kept

/-- The session `game` with the two participants in the other order. -/
def swapPlayers (game : Game) : Game :=
  { game with player1 := game.player2, player2 := game.player1 }

/-- The result of a round seen with the two participants in the other order. -/
def RoundWinner.swap : RoundWinner → RoundWinner
  | RoundWinner.tie => RoundWinner.tie
  | RoundWinner.player1 => RoundWinner.player2
  | RoundWinner.player2 => RoundWinner.player1

/-- The state after `startGame alice bob arena`, two rounds of alice's rock against
bob's scissors, and a third rock of alice: alice leads 2-0 in round 3 with rock
pending. -/
def matchPoint : State :=
  (handleChoice alice "rock" (sampleGame 2 0 3 [])
    (handleChoice bob "scissors" (sampleGame 1 0 2 [(1, "rock")])
      (handleChoice alice "rock" (sampleGame 1 0 2 [])
        (handleChoice bob "scissors" (sampleGame 0 0 1 [(1, "rock")])
          (handleChoice alice "rock" (sampleGame 0 0 1 [])
            (startGame alice bob arena State.init)).2).2).2).2).2

/-- Whether the call `handleChoice player choice game` completes the pair of moves
and the round it resolves is a tie. -/
def resolvesTie (player : User) (choice : String) (game : Game) : Bool :=
  decide ((objKeys (objSet game.choices player.id choice)).length = 2)
    && decide (roundWinner (objGet (objSet game.choices player.id choice) game.player1.id)
        (objGet (objSet game.choices player.id choice) game.player2.id) = RoundWinner.tie)

/-- The reachable states of `Reachable`, each with a history count: `ties id` is the
number of tied rounds resolved so far in the session now registered under the
channel id `id`.  `startGame` starts the count of its channel at 0 and a call of
`handleChoice` that resolves a tied round adds one to the count of the channel of
its session. -/
inductive ReachableWithTies : State → (Nat → Nat) → Prop where
  | init (db : List Row) (sent : List Sent) :
      ReachableWithTies { games := [], db := db, sent := sent } (fun _ => 0)
  | startGame {s : State} {ties : Nat → Nat} (player1 player2 : User) (channel : Channel) :
      ReachableWithTies s ties →
      ReachableWithTies (startGame player1 player2 channel s) (Function.update ties channel.id 0)
  | handleChoice {s : State} {ties : Nat → Nat} (player : User) (choice : String)
      (game : Game) :
      ReachableWithTies s ties → gamesGet s.games game.channel.id = some game →
      ReachableWithTies (handleChoice player choice game s).2
        (if resolvesTie player choice game then
          Function.update ties game.channel.id (ties game.channel.id + 1)
        else ties)
  | reset {s : State} {ties : Nat → Nat} (message : Message) :
      ReachableWithTies s ties → ReachableWithTies (resetCommand message s) ties

/-- The sessions of the registry with two participants of distinct ids have both
scores present, and scores, tied rounds and 1 add up to the round counter. -/
def RoundsAccounted (games : List Game) (ties : Nat → Nat) : Prop :=
  ∀ g ∈ games, g.player1.id ≠ g.player2.id →
    ∃ n1 n2, objGet g.scores g.player1.id = some n1 ∧ objGet g.scores g.player2.id = some n2
      ∧ n1 + n2 + ties g.channel.id + 1 = g.round

/-- The tie counts after `startGame alice bob arena` and one tied round. -/
def sampleTies : Nat → Nat :=
  Function.update (Function.update (fun _ => 0) 10 0) 10 (0 + 1)

/-! ## Lemmas on objects -/

theorem objGet_nil {α : Type} (k : Nat) : objGet ([] : Obj α) k = none := rfl

theorem objGet_cons {α : Type} (k k' : Nat) (v : α) (o : Obj α) :
    objGet ((k, v) :: o) k' = if k = k' then some v else objGet o k' := by
  by_cases h : k = k' <;> simp [objGet, List.find?_cons, h]

theorem objGet_objIncr (o : Obj Nat) (k k' : Nat) :
    objGet (objIncr o k) k' = if k = k' then (objGet o k').map (· + 1) else objGet o k' := by
  induction o with
  | nil => simp [objIncr, objGet]
  | cons kv o ih =>
    obtain ⟨a, v⟩ := kv
    have ih' : objGet (List.map (fun kv => if kv.1 = k then (kv.1, kv.2 + 1) else kv) o) k'
        = if k = k' then (objGet o k').map (· + 1) else objGet o k' := ih
    by_cases h1 : a = k <;> by_cases h2 : k = k' <;> by_cases h3 : a = k' <;>
      simp_all [objIncr, objGet_cons]

theorem objSet_single_ne (k k' : Nat) (c c' : String) (h : k ≠ k') :
    objSet [(k, c)] k' c' = [(k, c), (k', c')] := by
  simp [objSet, objGet_cons, objGet_nil, h]

theorem objSet_single_eq (k : Nat) (c c' : String) :
    objSet [(k, c)] k c' = [(k, c')] := by
  simp [objSet, objGet_cons]

/-! ## Lemmas on the registry and the state -/

@[simp] theorem channelSend_games (channel : Channel) (text : String) (s : State) :
    (channelSend channel text s).games = s.games := rfl

@[simp] theorem channelSend_db (channel : Channel) (text : String) (s : State) :
    (channelSend channel text s).db = s.db := rfl

@[simp] theorem userSend_games (player : User) (text : String) (s : State) :
    (userSend player text s).games = s.games := rfl

@[simp] theorem userSend_db (player : User) (text : String) (s : State) :
    (userSend player text s).db = s.db := rfl

@[simp] theorem messageReply_games (message : Message) (text : String) (s : State) :
    (messageReply message text s).games = s.games := rfl

@[simp] theorem messageReply_db (message : Message) (text : String) (s : State) :
    (messageReply message text s).db = s.db := rfl

@[simp] theorem updateScore_games (channel : Channel) (s : State) :
    (updateScore channel s).games = s.games := by
  unfold updateScore; split <;> rfl

@[simp] theorem updateScore_db (channel : Channel) (s : State) :
    (updateScore channel s).db = s.db := by
  unfold updateScore; split <;> rfl

@[simp] theorem updateRound_games (channel : Channel) (s : State) :
    (updateRound channel s).games = s.games := by
  unfold updateRound; split <;> rfl

@[simp] theorem updateRound_db (channel : Channel) (s : State) :
    (updateRound channel s).db = s.db := by
  unfold updateRound; split <;> rfl

@[simp] theorem syncGame_db (game : Game) (s : State) : (syncGame game s).db = s.db := rfl

/-- Writing a session back twice shows the last value. -/
theorem syncGame_games_twice (g1 g2 : Game) (h : g2.channel = g1.channel) (s : State) :
    (syncGame g2 (syncGame g1 s)).games = (syncGame g2 s).games := by
  simp only [syncGame, List.map_map]
  apply List.map_congr_left
  intro x _
  by_cases hx : x.channel.id = g1.channel.id <;> simp [hx, h]

theorem gamesGet_syncGame (game : Game) (s : State) :
    gamesGet (syncGame game s).games game.channel.id
      = if (gamesGet s.games game.channel.id).isSome then some game else none := by
  obtain ⟨games, db, sent⟩ := s
  simp only [syncGame, gamesGet]
  induction games with
  | nil => simp
  | cons x xs ih =>
    by_cases hx : x.channel.id = game.channel.id
    · simp [List.find?_cons, hx]
    · simpa [List.find?_cons, hx] using ih

theorem gamesGet_gamesDelete (games : List Game) (id : Nat) :
    gamesGet (gamesDelete games id) id = none := by
  simp [gamesGet, gamesDelete, List.find?_eq_none]

theorem mem_of_gamesGet {games : List Game} {id : Nat} {g : Game}
    (h : gamesGet games id = some g) : g ∈ games :=
  List.mem_of_find?_eq_some h

/-! ## Lemmas on `handleChoice` -/

@[simp] theorem scoreRound_round (game : Game) : (scoreRound game).1.round = game.round := by
  unfold scoreRound; split <;> rfl

@[simp] theorem scoreRound_channel (game : Game) :
    (scoreRound game).1.channel = game.channel := by
  unfold scoreRound; split <;> rfl

@[simp] theorem scoreRound_player1 (game : Game) :
    (scoreRound game).1.player1 = game.player1 := by
  unfold scoreRound; split <;> rfl

@[simp] theorem scoreRound_player2 (game : Game) :
    (scoreRound game).1.player2 = game.player2 := by
  unfold scoreRound; split <;> rfl

/-- The final value of the session object. -/
theorem handleChoice_fst (player : User) (choice : String) (game : Game) (s : State) :
    (handleChoice player choice game s).1 =
      if (objKeys (objSet game.choices player.id choice)).length = 2 then
        { (scoreRound { game with choices := objSet game.choices player.id choice }).1 with
          choices := []
          round := game.round + 1 }
      else { game with choices := objSet game.choices player.id choice } := by
  by_cases hk : (objKeys (objSet game.choices player.id choice)).length = 2 <;>
    simp [handleChoice, hk, resetRound]

@[simp] theorem handleChoice_fst_channel (player : User) (choice : String) (game : Game)
    (s : State) : (handleChoice player choice game s).1.channel = game.channel := by
  rw [handleChoice_fst]; split <;> simp

@[simp] theorem handleChoice_fst_player1 (player : User) (choice : String) (game : Game)
    (s : State) : (handleChoice player choice game s).1.player1 = game.player1 := by
  rw [handleChoice_fst]; split <;> simp

@[simp] theorem handleChoice_fst_player2 (player : User) (choice : String) (game : Game)
    (s : State) : (handleChoice player choice game s).1.player2 = game.player2 := by
  rw [handleChoice_fst]; split <;> simp

theorem checkGameEnd_games (game : Game) (s : State) :
    (checkGameEnd game s).games =
      if objGet game.scores game.player1.id = some 3 ∨ objGet game.scores game.player2.id = some 3
      then gamesDelete s.games game.channel.id else s.games := by
  unfold checkGameEnd
  split <;> simp_all

theorem checkGameEnd_db (game : Game) (s : State) :
    (checkGameEnd game s).db =
      if objGet game.scores game.player1.id = some 3 then
        incrementWin game.player1.id game.player1.username s.db
      else if objGet game.scores game.player2.id = some 3 then
        incrementWin game.player2.id game.player2.username s.db
      else s.db := by
  unfold checkGameEnd
  by_cases h1 : objGet game.scores game.player1.id = some 3 <;>
    by_cases h2 : objGet game.scores game.player2.id = some 3 <;> simp [h1, h2]

/-- The registry after `handleChoice`: the session shows its final value, and is
deleted when the round was resolved and a score is 3. -/
theorem handleChoice_games (player : User) (choice : String) (game : Game) (s : State) :
    (handleChoice player choice game s).2.games =
      if (objKeys (objSet game.choices player.id choice)).length = 2
          ∧ (objGet (handleChoice player choice game s).1.scores game.player1.id = some 3
            ∨ objGet (handleChoice player choice game s).1.scores game.player2.id = some 3)
      then gamesDelete (syncGame (handleChoice player choice game s).1 s).games game.channel.id
      else (syncGame (handleChoice player choice game s).1 s).games := by
  by_cases hk : (objKeys (objSet game.choices player.id choice)).length = 2
  · rw [handleChoice_fst]
    simp only [handleChoice, hk, if_true, true_and, resetRound, checkGameEnd_games,
      updateScore_games, updateRound_games, scoreRound_round]
    have hX : ∀ (c : Channel) (t : String) (g1 g2 g3 : Game),
        g2.channel = g1.channel → g3.channel = g1.channel →
        (syncGame g3 (channelSend c t (syncGame g2 (syncGame g1 s)))).games
          = (syncGame g3 s).games := by
      intro c t g1 g2 g3 h2 h3
      simp only [syncGame, channelSend, List.map_map]
      apply List.map_congr_left
      intro x _
      by_cases hx : x.channel.id = g1.channel.id <;> simp [hx, h2, h3]
    rw [hX _ _ _ _ _ (by simp) (by simp)]
    simp
  · rw [handleChoice_fst]
    simp [handleChoice, hk]

/-- The leaderboard table after `handleChoice`. -/
theorem handleChoice_db (player : User) (choice : String) (game : Game) (s : State) :
    (handleChoice player choice game s).2.db =
      if (objKeys (objSet game.choices player.id choice)).length = 2 then
        if objGet (handleChoice player choice game s).1.scores game.player1.id = some 3 then
          incrementWin game.player1.id game.player1.username s.db
        else if objGet (handleChoice player choice game s).1.scores game.player2.id = some 3 then
          incrementWin game.player2.id game.player2.username s.db
        else s.db
      else s.db := by
  by_cases hk : (objKeys (objSet game.choices player.id choice)).length = 2
  · rw [handleChoice_fst]
    simp [handleChoice, hk, resetRound, checkGameEnd_db]
  · simp [handleChoice, hk]

/-! ## Lemmas on the round of two moves -/

/-- In the situation of `SecondMove` the write of line 66 completes the pair of
choices. -/
theorem secondMove_choices {game : Game} {player : User} {choice a b : String}
    (hne : game.player1.id ≠ game.player2.id) (h : SecondMove game player choice a b) :
    (objKeys (objSet game.choices player.id choice)).length = 2
      ∧ objGet (objSet game.choices player.id choice) game.player1.id = some a
      ∧ objGet (objSet game.choices player.id choice) game.player2.id = some b := by
  have hne' : game.player2.id ≠ game.player1.id := Ne.symm hne
  rcases h with ⟨hc, hp, rfl⟩ | ⟨hc, hp, rfl⟩
  · rw [hc, hp, objSet_single_ne _ _ _ _ hne]
    simp [objKeys, objGet_cons, objGet_nil, hne]
  · rw [hc, hp, objSet_single_ne _ _ _ _ hne']
    simp [objKeys, objGet_cons, objGet_nil, hne']

/-- The scores of the session object after the second move of a round. -/
theorem handleChoice_scores_secondMove {game : Game} {player : User} {choice a b : String}
    (s : State) (hne : game.player1.id ≠ game.player2.id)
    (h : SecondMove game player choice a b) :
    (handleChoice player choice game s).1.scores =
      match roundWinner (some a) (some b) with
      | RoundWinner.tie => game.scores
      | RoundWinner.player1 => objIncr game.scores game.player1.id
      | RoundWinner.player2 => objIncr game.scores game.player2.id := by
  obtain ⟨hk, h1, h2⟩ := secondMove_choices hne h
  rw [handleChoice_fst, if_pos hk]
  simp only [scoreRound, h1, h2]
  cases roundWinner (some a) (some b) <;> rfl

/-- A session still registered after `handleChoice` shows the final value of the
session object. -/
theorem handleChoice_registered (player : User) (choice : String) (game : Game) (s : State)
    (hreg : gamesGet s.games game.channel.id = some game) :
    gamesGet (handleChoice player choice game s).2.games game.channel.id
        = some (handleChoice player choice game s).1
      ∨ gamesGet (handleChoice player choice game s).2.games game.channel.id = none := by
  have hsync : gamesGet (syncGame (handleChoice player choice game s).1 s).games game.channel.id
      = some (handleChoice player choice game s).1 := by
    have := gamesGet_syncGame (handleChoice player choice game s).1 s
    rw [handleChoice_fst_channel, hreg] at this
    simpa using this
  rw [handleChoice_games]
  split
  · right; exact gamesGet_gamesDelete _ _
  · left; exact hsync

theorem selectUser_incrementWin_ne (db : List Row) (userId other : Nat) (username : String)
    (h : other ≠ userId) :
    (incrementWin userId username db).filter (fun r => decide (r.userId = other))
      = db.filter (fun r => decide (r.userId = other)) := by
  have hmap : ∀ rows : List Row,
      (rows.map (fun r => if r.userId = userId then { r with wins := r.wins + 1 } else r)).filter
          (fun r => decide (r.userId = other))
        = rows.filter (fun r => decide (r.userId = other)) := by
    intro rows
    induction rows with
    | nil => rfl
    | cons r rs ih =>
      by_cases h1 : r.userId = userId <;> by_cases h2 : r.userId = other <;>
        simp_all [List.filter_cons]
  unfold incrementWin
  split
  · exact hmap db
  · simp [List.filter_append, List.filter_cons, Ne.symm h]

/-! ## Round resolution -/

/-- C1: for the nine pairs of valid moves, `a` by player1 and `b` by player2, the
decision of `handleChoice` is a tie exactly when `a = b`, a win of player1 exactly
for rock-scissors, scissors-paper and paper-rock, and a win of player2 exactly in
the three remaining pairs. -/
theorem roundWinner_table :
    ∀ a ∈ validMoves, ∀ b ∈ validMoves,
      (roundWinner (some a) (some b) = RoundWinner.tie ↔ a = b)
      ∧ (roundWinner (some a) (some b) = RoundWinner.player1 ↔
          (a, b) ∈ [("rock", "scissors"), ("scissors", "paper"), ("paper", "rock")])
      ∧ (roundWinner (some a) (some b) = RoundWinner.player2 ↔
          (a, b) ∈ [("scissors", "rock"), ("paper", "scissors"), ("rock", "paper")]) := by
  decide

/-- Paper against rock: the pair is not a tie, player1 wins and player2 does not. -/
theorem roundWinner_table_witness :
    (roundWinner (some "paper") (some "rock") = RoundWinner.tie ↔ "paper" = "rock")
      ∧ (roundWinner (some "paper") (some "rock") = RoundWinner.player1 ↔
          ("paper", "rock") ∈ [("rock", "scissors"), ("scissors", "paper"), ("paper", "rock")])
      ∧ (roundWinner (some "paper") (some "rock") = RoundWinner.player2 ↔
          ("paper", "rock") ∈ [("scissors", "rock"), ("paper", "scissors"), ("rock", "paper")]) :=
  roundWinner_table "paper" (by decide) "rock" (by decide)

/-- C2: in a registered session of two players with distinct ids where one
participant has a pending move, the move of the other participant raises the score
of the winner of the round by one and keeps the other score, and a tie keeps both;
the session, when still registered, shows these scores. -/
theorem handleChoice_round_scores (s : State) (game : Game) (player : User)
    (choice a b : String) (n1 n2 : Nat)
    (hreg : gamesGet s.games game.channel.id = some game)
    (hne : game.player1.id ≠ game.player2.id)
    (h1 : objGet game.scores game.player1.id = some n1)
    (h2 : objGet game.scores game.player2.id = some n2)
    (hmove : SecondMove game player choice a b) :
    (roundWinner (some a) (some b) = RoundWinner.tie →
        objGet (handleChoice player choice game s).1.scores game.player1.id = some n1
        ∧ objGet (handleChoice player choice game s).1.scores game.player2.id = some n2)
    ∧ (roundWinner (some a) (some b) = RoundWinner.player1 →
        objGet (handleChoice player choice game s).1.scores game.player1.id = some (n1 + 1)
        ∧ objGet (handleChoice player choice game s).1.scores game.player2.id = some n2)
    ∧ (roundWinner (some a) (some b) = RoundWinner.player2 →
        objGet (handleChoice player choice game s).1.scores game.player1.id = some n1
        ∧ objGet (handleChoice player choice game s).1.scores game.player2.id = some (n2 + 1))
    ∧ (gamesGet (handleChoice player choice game s).2.games game.channel.id
          = some (handleChoice player choice game s).1
        ∨ gamesGet (handleChoice player choice game s).2.games game.channel.id = none) := by
  have hsc := handleChoice_scores_secondMove s hne hmove
  have hne' : game.player2.id ≠ game.player1.id := Ne.symm hne
  refine ⟨?_, ?_, ?_, handleChoice_registered player choice game s hreg⟩
  · intro hw
    rw [hsc, hw]
    exact ⟨h1, h2⟩
  · intro hw
    rw [hsc, hw]
    simp [objGet_objIncr, h1, h2, hne]
  · intro hw
    rw [hsc, hw]
    simp [objGet_objIncr, h1, h2, hne']

/-- Alice has played rock and bob submits paper: bob's score goes from 0 to 1 and
alice's stays 0. -/
theorem handleChoice_round_scores_witness :
    objGet (handleChoice bob "paper" (sampleGame 0 0 1 [(1, "rock")])
        (sampleState (sampleGame 0 0 1 [(1, "rock")]))).1.scores alice.id = some 0
      ∧ objGet (handleChoice bob "paper" (sampleGame 0 0 1 [(1, "rock")])
        (sampleState (sampleGame 0 0 1 [(1, "rock")]))).1.scores bob.id = some (0 + 1) :=
  (handleChoice_round_scores (sampleState (sampleGame 0 0 1 [(1, "rock")]))
    (sampleGame 0 0 1 [(1, "rock")]) bob "paper" "rock" "paper" 0 0
    (by decide) (by decide) (by decide) (by decide) (by decide)).2.2.1 (by decide)

/-- C3: in a session of two players with distinct ids where one participant has a
pending move, after the move of the other participant the session object has no
pending moves and its round counter is one greater, whatever the result of the
round; the session, when still registered, shows the same. -/
theorem handleChoice_round_reset (s : State) (game : Game) (player : User)
    (choice a b : String)
    (hne : game.player1.id ≠ game.player2.id)
    (hmove : SecondMove game player choice a b) :
    (handleChoice player choice game s).1.choices = []
    ∧ (handleChoice player choice game s).1.round = game.round + 1
    ∧ ∀ g, gamesGet (handleChoice player choice game s).2.games game.channel.id = some g →
        g.choices = [] ∧ g.round = game.round + 1 := by
  obtain ⟨hk, -, -⟩ := secondMove_choices hne hmove
  have hc : (handleChoice player choice game s).1.choices = [] := by
    rw [handleChoice_fst, if_pos hk]
  have hr : (handleChoice player choice game s).1.round = game.round + 1 := by
    rw [handleChoice_fst, if_pos hk]
  refine ⟨hc, hr, ?_⟩
  intro g hg
  have hsync := gamesGet_syncGame (handleChoice player choice game s).1 s
  rw [handleChoice_fst_channel] at hsync
  rw [handleChoice_games] at hg
  split at hg
  · rw [gamesGet_gamesDelete] at hg
    exact absurd hg (by simp)
  · rw [hsync] at hg
    split at hg
    · cases hg
      exact ⟨hc, hr⟩
    · exact absurd hg (by simp)

/-- Bob has played paper in round 4 and alice submits paper: a tied round, after
which nothing is pending and the round is 5. -/
theorem handleChoice_round_reset_witness :
    (handleChoice alice "paper" (sampleGame 2 1 4 [(2, "paper")])
        (sampleState (sampleGame 2 1 4 [(2, "paper")]))).1.choices = []
      ∧ (handleChoice alice "paper" (sampleGame 2 1 4 [(2, "paper")])
        (sampleState (sampleGame 2 1 4 [(2, "paper")]))).1.round = 4 + 1 :=
  have h := handleChoice_round_reset (sampleState (sampleGame 2 1 4 [(2, "paper")]))
    (sampleGame 2 1 4 [(2, "paper")]) alice "paper" "paper" "paper" (by decide) (by decide)
  ⟨h.1, h.2.1⟩

/-! ## Match end -/

/-- C4: when the round resolved by `handleChoice` in a registered session leaves a
participant with score 3, the session is removed from `games` (the lookup by its
channel id finds nothing and the registry is shorter) and the leaderboard table is
the old one after one `incrementWin`, for a participant whose score is 3; the rows
of the other participant are unchanged. -/
theorem handleChoice_match_end (s : State) (game : Game) (player : User)
    (choice a b : String)
    (hreg : gamesGet s.games game.channel.id = some game)
    (hne : game.player1.id ≠ game.player2.id)
    (hmove : SecondMove game player choice a b)
    (hend : objGet (handleChoice player choice game s).1.scores game.player1.id = some 3
      ∨ objGet (handleChoice player choice game s).1.scores game.player2.id = some 3) :
    gamesGet (handleChoice player choice game s).2.games game.channel.id = none
    ∧ (handleChoice player choice game s).2.games.length < s.games.length
    ∧ ∃ winner other : User,
        ((winner = game.player1 ∧ other = game.player2)
          ∨ (winner = game.player2 ∧ other = game.player1))
        ∧ objGet (handleChoice player choice game s).1.scores winner.id = some 3
        ∧ (handleChoice player choice game s).2.db
            = incrementWin winner.id winner.username s.db
        ∧ (handleChoice player choice game s).2.db.filter (fun r => decide (r.userId = other.id))
            = s.db.filter (fun r => decide (r.userId = other.id)) := by
  obtain ⟨hk, -, -⟩ := secondMove_choices hne hmove
  refine ⟨?_, ?_, ?_⟩
  · rw [handleChoice_games, if_pos ⟨hk, hend⟩]
    exact gamesGet_gamesDelete _ _
  · rw [handleChoice_games, if_pos ⟨hk, hend⟩]
    have hlen : (syncGame (handleChoice player choice game s).1 s).games.length
        = s.games.length := by simp [syncGame]
    have hsome : gamesGet (syncGame (handleChoice player choice game s).1 s).games
        game.channel.id = some (handleChoice player choice game s).1 := by
      have := gamesGet_syncGame (handleChoice player choice game s).1 s
      rw [handleChoice_fst_channel, hreg] at this
      simpa using this
    rw [← hlen]
    unfold gamesDelete
    apply List.length_filter_lt_length_iff_exists.2
    exact ⟨_, mem_of_gamesGet hsome, by simp⟩
  · by_cases hp1 : objGet (handleChoice player choice game s).1.scores game.player1.id = some 3
    · have hdb : (handleChoice player choice game s).2.db
          = incrementWin game.player1.id game.player1.username s.db := by
        rw [handleChoice_db, if_pos hk, if_pos hp1]
      refine ⟨game.player1, game.player2, Or.inl ⟨rfl, rfl⟩, hp1, hdb, ?_⟩
      rw [hdb]
      exact selectUser_incrementWin_ne _ _ _ _ (Ne.symm hne)
    · have hp2 : objGet (handleChoice player choice game s).1.scores game.player2.id = some 3 := by
        rcases hend with h | h
        · exact absurd h hp1
        · exact h
      have hdb : (handleChoice player choice game s).2.db
          = incrementWin game.player2.id game.player2.username s.db := by
        rw [handleChoice_db, if_pos hk, if_neg hp1, if_pos hp2]
      refine ⟨game.player2, game.player1, Or.inr ⟨rfl, rfl⟩, hp2, hdb, ?_⟩
      rw [hdb]
      exact selectUser_incrementWin_ne _ _ _ _ hne

/-- Alice leads 2-1 with rock pending and bob submits scissors: alice reaches 3,
the session of the arena is gone and the leaderboard gets alice's first win. -/
theorem handleChoice_match_end_witness :
    gamesGet (handleChoice bob "scissors" (sampleGame 2 1 4 [(1, "rock")])
        (sampleState (sampleGame 2 1 4 [(1, "rock")]))).2.games arena.id = none
      ∧ (handleChoice bob "scissors" (sampleGame 2 1 4 [(1, "rock")])
        (sampleState (sampleGame 2 1 4 [(1, "rock")]))).2.db
          = [{ userId := 1, username := "alice", wins := 1 }] :=
  ⟨(handleChoice_match_end (sampleState (sampleGame 2 1 4 [(1, "rock")]))
      (sampleGame 2 1 4 [(1, "rock")]) bob "scissors" "rock" "scissors"
      (by decide) (by decide) (by decide) (by decide)).1, by decide⟩

/-! ## Start on an occupied channel -/

theorem gamesGet_gamesSet (games : List Game) (game : Game) :
    gamesGet (gamesSet games game) game.channel.id = some game := by
  unfold gamesSet
  split
  · next h =>
    have := gamesGet_syncGame game { games := games, db := [], sent := [] }
    simpa [syncGame, h] using this
  · next h =>
    have hnone : gamesGet games game.channel.id = none := by simpa using h
    unfold gamesGet at hnone ⊢
    rw [List.find?_append, hnone]
    simp [List.find?_cons]

theorem startGame_games (player1 player2 : User) (channel : Channel) (s : State) :
    (startGame player1 player2 channel s).games =
      gamesSet s.games
        { player1 := player1, player2 := player2,
          scores := objSet (objSet [] player1.id 0) player2.id 0,
          round := 1, choices := [], channel := channel } := by
  simp [startGame]

theorem objGet_start_scores (k1 k2 : Nat) :
    objGet (objSet (objSet ([] : Obj Nat) k1 0) k2 0) k1 = some 0
      ∧ objGet (objSet (objSet ([] : Obj Nat) k1 0) k2 0) k2 = some 0 := by
  by_cases h : k1 = k2
  · subst h
    simp [objSet, objGet_cons, objGet_nil]
  · simp [objSet, objGet_cons, objGet_nil, h]

/-- C5, refuted as stated: alice and bob are in round 2 at 1-0 in the arena; a
`startGame` for carol and alice in the same arena leaves another session there. -/
theorem startGame_occupied_counterexample :
    gamesGet (sampleState (sampleGame 1 0 2 [])).games arena.id = some (sampleGame 1 0 2 [])
      ∧ gamesGet (startGame carol alice arena (sampleState (sampleGame 1 0 2 []))).games arena.id
          = some { player1 := carol, player2 := alice, scores := [(3, 0), (1, 0)], round := 1,
                   choices := [], channel := arena }
      ∧ gamesGet (startGame carol alice arena (sampleState (sampleGame 1 0 2 []))).games arena.id
          ≠ some (sampleGame 1 0 2 []) := by
  decide

/-- C5, amended: `startGame` on a channel that already has a session does not fail;
it puts in the place of the old session a new one of the two players given, with
both scores 0, round 1 and no pending moves, and the number of sessions stays the
same. -/
theorem startGame_occupied_replaces (s : State) (player1 player2 : User) (channel : Channel)
    (old : Game) (hocc : gamesGet s.games channel.id = some old) :
    (∃ g, gamesGet (startGame player1 player2 channel s).games channel.id = some g
        ∧ g.player1 = player1 ∧ g.player2 = player2
        ∧ objGet g.scores player1.id = some 0 ∧ objGet g.scores player2.id = some 0
        ∧ g.round = 1 ∧ g.choices = [] ∧ g.channel = channel)
    ∧ (startGame player1 player2 channel s).games.length = s.games.length := by
  refine ⟨⟨{ player1 := player1, player2 := player2,
              scores := objSet (objSet [] player1.id 0) player2.id 0,
              round := 1, choices := [], channel := channel },
    ?_, rfl, rfl, (objGet_start_scores _ _).1, (objGet_start_scores _ _).2, rfl, rfl, rfl⟩, ?_⟩
  · rw [startGame_games]
    exact gamesGet_gamesSet s.games
      { player1 := player1, player2 := player2,
        scores := objSet (objSet [] player1.id 0) player2.id 0,
        round := 1, choices := [], channel := channel }
  · rw [startGame_games]
    simp [gamesSet, hocc]

/-- The arena holds the session of alice and bob; after `startGame carol alice` the
registry still has one session. -/
theorem startGame_occupied_replaces_witness :
    (startGame carol alice arena (sampleState (sampleGame 1 0 2 []))).games.length
      = (sampleState (sampleGame 1 0 2 [])).games.length :=
  (startGame_occupied_replaces (sampleState (sampleGame 1 0 2 [])) carol alice arena
    (sampleGame 1 0 2 []) (by decide)).2

/-! ## A second move by the same participant -/

/-- C6, refuted as stated: alice has rock pending and submits paper; the pending
move of the session is now paper. -/
theorem handleChoice_duplicate_counterexample :
    (sampleGame 0 0 1 [(1, "rock")]).choices = [(alice.id, "rock")]
      ∧ (handleChoice alice "paper" (sampleGame 0 0 1 [(1, "rock")])
          (sampleState (sampleGame 0 0 1 [(1, "rock")]))).1.choices = [(alice.id, "paper")]
      ∧ gamesGet (handleChoice alice "paper" (sampleGame 0 0 1 [(1, "rock")])
          (sampleState (sampleGame 0 0 1 [(1, "rock")]))).2.games arena.id
          = some (sampleGame 0 0 1 [(1, "paper")]) := by
  decide

/-- C6, amended: when a participant has a pending move and the opponent has not
moved, a further move of the same participant is accepted and replaces the pending
move; no round is resolved: scores, round, leaderboard table and sent texts are
unchanged and the registered session shows the new pending move. -/
theorem handleChoice_duplicate_overwrites (s : State) (game : Game) (player : User)
    (first choice : String)
    (hreg : gamesGet s.games game.channel.id = some game)
    (hpend : game.choices = [(player.id, first)]) :
    (handleChoice player choice game s).1 = { game with choices := [(player.id, choice)] }
    ∧ gamesGet (handleChoice player choice game s).2.games game.channel.id
        = some { game with choices := [(player.id, choice)] }
    ∧ (handleChoice player choice game s).2.db = s.db
    ∧ (handleChoice player choice game s).2.sent = s.sent := by
  have hk : ¬ (objKeys (objSet game.choices player.id choice)).length = 2 := by
    rw [hpend, objSet_single_eq]
    simp [objKeys]
  have hfst : (handleChoice player choice game s).1
      = { game with choices := [(player.id, choice)] } := by
    rw [handleChoice_fst, if_neg hk, hpend, objSet_single_eq]
  refine ⟨hfst, ?_, ?_, ?_⟩
  · rw [handleChoice_games, if_neg (fun h => hk h.1), hfst]
    have := gamesGet_syncGame { game with choices := [(player.id, choice)] } s
    simpa [hreg] using this
  · rw [handleChoice_db, if_neg hk]
  · simp [handleChoice, hk, syncGame]

/-- Alice has rock pending in round 3 at 1-1 and submits scissors: the session
object keeps scores and round and holds scissors. -/
theorem handleChoice_duplicate_overwrites_witness :
    (handleChoice alice "scissors" (sampleGame 1 1 3 [(1, "rock")])
        (sampleState (sampleGame 1 1 3 [(1, "rock")]))).1
      = { sampleGame 1 1 3 [(1, "rock")] with choices := [(alice.id, "scissors")] } :=
  (handleChoice_duplicate_overwrites (sampleState (sampleGame 1 1 3 [(1, "rock")]))
    (sampleGame 1 1 3 [(1, "rock")]) alice "rock" "scissors" (by decide) (by decide)).1

/-! ## The leaderboard table -/

theorem selectUser_append_new (db : List Row) (userId : Nat) (row : Row)
    (hnone : selectUser db userId = none) (hrow : row.userId = userId) :
    selectUser (db ++ [row]) userId = some row := by
  unfold selectUser at hnone ⊢
  rw [List.find?_append, hnone]
  simp [List.find?_cons, hrow]

theorem selectUser_map_incr (db : List Row) (userId : Nat) :
    selectUser (db.map (fun r => if r.userId = userId then { r with wins := r.wins + 1 } else r))
        userId
      = (selectUser db userId).map (fun r => { r with wins := r.wins + 1 }) := by
  unfold selectUser
  induction db with
  | nil => rfl
  | cons r rs ih =>
    by_cases h : r.userId = userId
    · simp [List.find?_cons, h]
    · simpa [List.find?_cons, h] using ih

/-- C9: `incrementWin` on a table without a row of `userId` adds the row
`(userId, username, 1)`; on a table whose row of `userId` has `wins = n` it makes
the wins `n + 1`; in both cases the rows of every other user id are unchanged. -/
theorem incrementWin_spec (db : List Row) (userId : Nat) (username : String) :
    (selectUser db userId = none →
        selectUser (incrementWin userId username db) userId
          = some { userId := userId, username := username, wins := 1 })
    ∧ (∀ row n, selectUser db userId = some row → row.wins = n →
        ∃ row', selectUser (incrementWin userId username db) userId = some row'
          ∧ row'.wins = n + 1)
    ∧ (∀ other, other ≠ userId →
        (incrementWin userId username db).filter (fun r => decide (r.userId = other))
          = db.filter (fun r => decide (r.userId = other))) := by
  refine ⟨?_, ?_, ?_⟩
  · intro hnone
    simp only [incrementWin, hnone]
    exact selectUser_append_new db userId _ hnone rfl
  · intro row n hrow hn
    refine ⟨{ row with wins := row.wins + 1 }, ?_, by simp [hn]⟩
    simp only [incrementWin, hrow]
    rw [selectUser_map_incr, hrow]
    rfl
  · intro other hother
    exact selectUser_incrementWin_ne db userId other username hother

/-- Bob has 4 wins and alice none: a win of alice adds her row with 1 win, a win of
bob makes his wins 5, and alice's win leaves bob's row as it was. -/
theorem incrementWin_spec_witness :
    selectUser (incrementWin 1 "alice" [{ userId := 2, username := "bob", wins := 4 }]) 1
        = some { userId := 1, username := "alice", wins := 1 }
      ∧ (∃ row', selectUser
            (incrementWin 2 "bob" [{ userId := 2, username := "bob", wins := 4 }]) 2 = some row'
          ∧ row'.wins = 4 + 1)
      ∧ (incrementWin 1 "alice" [{ userId := 2, username := "bob", wins := 4 }]).filter
            (fun r => decide (r.userId = 2))
          = [{ userId := 2, username := "bob", wins := 4 }] :=
  ⟨(incrementWin_spec [{ userId := 2, username := "bob", wins := 4 }] 1 "alice").1 (by decide),
    (incrementWin_spec [{ userId := 2, username := "bob", wins := 4 }] 2 "bob").2.1
      { userId := 2, username := "bob", wins := 4 } 4 (by decide) rfl,
    (incrementWin_spec [{ userId := 2, username := "bob", wins := 4 }] 1 "alice").2.2 2
      (by decide)⟩

/-- C10, refuted as stated: the row of user 1 holds the name alice; after
`incrementWin 1 "ally"` the row still holds alice, not the name passed. -/
theorem incrementWin_username_counterexample :
    selectUser [{ userId := 1, username := "alice", wins := 1 }] 1
        = some { userId := 1, username := "alice", wins := 1 }
      ∧ selectUser (incrementWin 1 "ally" [{ userId := 1, username := "alice", wins := 1 }]) 1
        = some { userId := 1, username := "alice", wins := 2 }
      ∧ (selectUser (incrementWin 1 "ally" [{ userId := 1, username := "alice", wins := 1 }])
          1).map Row.username ≠ some "ally" := by
  decide

/-- C10, amended: on a table that already has a row of `userId`, `incrementWin`
keeps the username stored in that row, whatever username is passed, and the
usernames of all rows are unchanged; the name passed is stored only when the row is
created. -/
theorem incrementWin_username_kept (db : List Row) (userId : Nat) (username : String)
    (row : Row) (hrow : selectUser db userId = some row) :
    (selectUser (incrementWin userId username db) userId).map Row.username = some row.username
    ∧ (incrementWin userId username db).map Row.username = db.map Row.username := by
  simp only [incrementWin, hrow]
  refine ⟨?_, ?_⟩
  · rw [selectUser_map_incr, hrow]
    rfl
  · rw [List.map_map]
    apply List.map_congr_left
    intro r _
    by_cases h : r.userId = userId <;> simp [h]

/-- The row of user 1 holds alice; after `incrementWin 1 "ally"` it still does. -/
theorem incrementWin_username_kept_witness :
    (selectUser (incrementWin 1 "ally" [{ userId := 1, username := "alice", wins := 1 }])
        1).map Row.username = some "alice" :=
  (incrementWin_username_kept [{ userId := 1, username := "alice", wins := 1 }] 1 "ally"
    { userId := 1, username := "alice", wins := 1 } (by decide)).1

/-! ## Scores of registered sessions stay below the match target -/

theorem mem_gamesSet {games : List Game} {game g : Game} (h : g ∈ gamesSet games game) :
    g = game ∨ g ∈ games := by
  unfold gamesSet at h
  split at h
  · obtain ⟨x, hx, rfl⟩ := List.mem_map.1 h
    by_cases hc : x.channel.id = game.channel.id
    · left; simp [hc]
    · right; simpa [hc] using hx
  · rcases List.mem_append.1 h with h | h
    · exact Or.inr h
    · exact Or.inl (by simpa using h)

theorem mem_syncGame {game g : Game} {s : State} (h : g ∈ (syncGame game s).games) :
    g = game ∨ g ∈ s.games := by
  obtain ⟨x, hx, rfl⟩ := List.mem_map.1 h
  by_cases hc : x.channel.id = game.channel.id
  · left; simp [hc]
  · right; simpa [hc] using hx

theorem mem_gamesDelete {games : List Game} {id : Nat} {g : Game}
    (h : g ∈ gamesDelete games id) : g ∈ games ∧ g.channel.id ≠ id := by
  simpa [gamesDelete] using h

/-- One round raises each score by at most one. -/
theorem scoreRound_scores_le (game : Game) (n1 n2 : Nat)
    (h1 : objGet game.scores game.player1.id = some n1)
    (h2 : objGet game.scores game.player2.id = some n2) :
    ∃ m1 m2, objGet (scoreRound game).1.scores game.player1.id = some m1
      ∧ objGet (scoreRound game).1.scores game.player2.id = some m2
      ∧ m1 ≤ n1 + 1 ∧ m2 ≤ n2 + 1 := by
  unfold scoreRound
  split
  · exact ⟨n1, n2, h1, h2, by omega, by omega⟩
  · by_cases h : game.player1.id = game.player2.id
    · exact ⟨n1 + 1, n2 + 1, by simp [objGet_objIncr, h1], by simp [objGet_objIncr, h, h2],
        by omega, by omega⟩
    · exact ⟨n1 + 1, n2, by simp [objGet_objIncr, h1], by simp [objGet_objIncr, h, h2],
        by omega, by omega⟩
  · by_cases h : game.player2.id = game.player1.id
    · exact ⟨n1 + 1, n2 + 1, by simp [objGet_objIncr, h, h1], by simp [objGet_objIncr, h2],
        by omega, by omega⟩
    · exact ⟨n1, n2 + 1, by simp [objGet_objIncr, h, h1], by simp [objGet_objIncr, h2],
        by omega, by omega⟩

/-- The session object after `handleChoice`: each score is the old one or one more. -/
theorem handleChoice_scores_le (player : User) (choice : String) (game : Game) (s : State)
    (n1 n2 : Nat)
    (h1 : objGet game.scores game.player1.id = some n1)
    (h2 : objGet game.scores game.player2.id = some n2) :
    ∃ m1 m2, objGet (handleChoice player choice game s).1.scores game.player1.id = some m1
      ∧ objGet (handleChoice player choice game s).1.scores game.player2.id = some m2
      ∧ m1 ≤ n1 + 1 ∧ m2 ≤ n2 + 1 := by
  rw [handleChoice_fst]
  split
  · exact scoreRound_scores_le { game with choices := objSet game.choices player.id choice }
      n1 n2 h1 h2
  · exact ⟨n1, n2, h1, h2, by omega, by omega⟩

theorem scoresBelowTarget_handleChoice (player : User) (choice : String) (game : Game)
    (s : State) (hinv : ScoresBelowTarget s.games)
    (hreg : gamesGet s.games game.channel.id = some game) :
    ScoresBelowTarget (handleChoice player choice game s).2.games := by
  obtain ⟨n1, n2, h1, h2, hn1, hn2⟩ := hinv game (mem_of_gamesGet hreg)
  obtain ⟨m1, m2, hm1, hm2, hle1, hle2⟩ := handleChoice_scores_le player choice game s n1 n2 h1 h2
  intro g hg
  rw [handleChoice_games] at hg
  split at hg
  · obtain ⟨hmem, hid⟩ := mem_gamesDelete hg
    rcases mem_syncGame hmem with rfl | hold
    · exact absurd (by simp) hid
    · exact hinv g hold
  · next hnot =>
    rcases mem_syncGame hg with rfl | hold
    · by_cases hk : (objKeys (objSet game.choices player.id choice)).length = 2
      · have hno1 : ¬ m1 = 3 := fun h => hnot ⟨hk, Or.inl (by rw [hm1, h])⟩
        have hno2 : ¬ m2 = 3 := fun h => hnot ⟨hk, Or.inr (by rw [hm2, h])⟩
        exact ⟨m1, m2, by simpa using hm1, by simpa using hm2, by omega, by omega⟩
      · refine ⟨n1, n2, ?_, ?_, hn1, hn2⟩
        · rw [handleChoice_fst, if_neg hk]; exact h1
        · rw [handleChoice_fst, if_neg hk]; exact h2
    · exact hinv g hold

theorem scoresBelowTarget_reachable {s : State} (h : Reachable s) :
    ScoresBelowTarget s.games := by
  induction h with
  | init db sent => intro g hg; simp at hg
  | startGame player1 player2 channel _ ih =>
    intro g hg
    rw [startGame_games] at hg
    rcases mem_gamesSet hg with rfl | hold
    · exact ⟨0, 0, (objGet_start_scores _ _).1, (objGet_start_scores _ _).2, by omega, by omega⟩
    · exact ih g hold
  | handleChoice player choice game _ hreg ih =>
    exact scoresBelowTarget_handleChoice player choice game _ ih hreg
  | reset message _ ih =>
    intro g hg
    unfold resetCommand at hg
    split at hg
    · exact ih g (mem_gamesDelete hg).1
    · exact ih g hg

/-- C7: in every state reached from the empty registry by `startGame`,
`handleChoice` and reset, each registered session has both scores between 0 and 2,
so none with a score at the target 3 stays registered; and during any further
`handleChoice` on such a state the scores of the session object are at most 3. -/
theorem reachable_scores_bounded (s : State) (h : Reachable s) :
    (∀ g ∈ s.games, ∃ n1 n2, objGet g.scores g.player1.id = some n1
        ∧ objGet g.scores g.player2.id = some n2 ∧ n1 ≤ 2 ∧ n2 ≤ 2)
    ∧ ∀ (player : User) (choice : String) (game : Game),
        gamesGet s.games game.channel.id = some game →
        ∃ m1 m2, objGet (handleChoice player choice game s).1.scores game.player1.id = some m1
          ∧ objGet (handleChoice player choice game s).1.scores game.player2.id = some m2
          ∧ m1 ≤ 3 ∧ m2 ≤ 3 := by
  refine ⟨scoresBelowTarget_reachable h, ?_⟩
  intro player choice game hreg
  obtain ⟨n1, n2, h1, h2, hn1, hn2⟩ := scoresBelowTarget_reachable h game (mem_of_gamesGet hreg)
  obtain ⟨m1, m2, hm1, hm2, hle1, hle2⟩ := handleChoice_scores_le player choice game s n1 n2 h1 h2
  exact ⟨m1, m2, hm1, hm2, by omega, by omega⟩

/-- The state after `startGame alice bob arena` on the initial state is reachable;
its session of alice and bob has both scores present and at most 2. -/
theorem reachable_scores_bounded_witness :
    ∃ n1 n2, objGet (sampleGame 0 0 1 []).scores (sampleGame 0 0 1 []).player1.id = some n1
      ∧ objGet (sampleGame 0 0 1 []).scores (sampleGame 0 0 1 []).player2.id = some n2
      ∧ n1 ≤ 2 ∧ n2 ≤ 2 :=
  (reachable_scores_bounded (startGame alice bob arena State.init)
    (Reachable.startGame alice bob arena (Reachable.init [] []))).1
      (sampleGame 0 0 1 []) (by decide)

/-! ## Sessions and players under the message handler -/

theorem gamesKeys_syncGame (game : Game) (s : State) :
    gamesKeys (syncGame game s).games = gamesKeys s.games := by
  simp only [gamesKeys, syncGame, List.map_map]
  apply List.map_congr_left
  intro x _
  by_cases hx : x.channel.id = game.channel.id <;> simp [hx]

theorem gamesKeys_gamesDelete_nodup (games : List Game) (id : Nat)
    (h : (gamesKeys games).Nodup) : (gamesKeys (gamesDelete games id)).Nodup := by
  unfold gamesKeys gamesDelete
  exact List.Nodup.sublist (List.Sublist.map _ (List.filter_sublist _)) h

theorem gamesKeys_gamesSet_nodup (games : List Game) (game : Game)
    (h : (gamesKeys games).Nodup) : (gamesKeys (gamesSet games game)).Nodup := by
  unfold gamesSet
  split
  · have := gamesKeys_syncGame game { games := games, db := [], sent := [] }
    simp only [syncGame] at this
    rw [this]
    exact h
  · next hnone =>
    have hnone' : gamesGet games game.channel.id = none := by simpa using hnone
    have hnot : game.channel.id ∉ gamesKeys games := by
      intro hmem
      obtain ⟨x, hx, hxid⟩ := List.mem_map.1 hmem
      have := List.find?_eq_none.1 hnone' x hx
      simp [hxid] at this
    simp only [gamesKeys, List.map_append, List.map_cons, List.map_nil]
    exact List.Nodup.append h (List.nodup_singleton _) (by simpa [gamesKeys] using hnot)

theorem gamesKeys_startGame_nodup (player1 player2 : User) (channel : Channel) (s : State)
    (h : (gamesKeys s.games).Nodup) :
    (gamesKeys (startGame player1 player2 channel s).games).Nodup := by
  rw [startGame_games]
  exact gamesKeys_gamesSet_nodup _ _ h

theorem gamesKeys_handleChoice_nodup (player : User) (choice : String) (game : Game) (s : State)
    (h : (gamesKeys s.games).Nodup) :
    (gamesKeys (handleChoice player choice game s).2.games).Nodup := by
  rw [handleChoice_games]
  split
  · apply gamesKeys_gamesDelete_nodup
    rw [gamesKeys_syncGame]
    exact h
  · rw [gamesKeys_syncGame]
    exact h

theorem gamesKeys_resetCommand_nodup (message : Message) (s : State)
    (h : (gamesKeys s.games).Nodup) : (gamesKeys (resetCommand message s).games).Nodup := by
  unfold resetCommand
  split
  · exact gamesKeys_gamesDelete_nodup _ _ h
  · exact h

theorem gamesKeys_guildCommands_nodup (message : Message) (s : State)
    (h : (gamesKeys s.games).Nodup) : (gamesKeys (guildCommands message s).games).Nodup := by
  unfold guildCommands displayLeaderboard
  dsimp only
  split <;> split <;>
    first
    | exact h
    | exact gamesKeys_resetCommand_nodup _ _ h

theorem gamesKeys_directMessage_nodup (js : StringOps) (message : Message) (s s2 : State)
    (h : (gamesKeys s.games).Nodup) (hdm : directMessage js message s = some s2) :
    (gamesKeys s2.games).Nodup := by
  unfold directMessage at hdm
  split at hdm
  · exact absurd hdm (by simp)
  · dsimp only at hdm
    split at hdm
    · cases hdm
      exact gamesKeys_handleChoice_nodup _ _ _ _ h
    · cases hdm
      exact h

theorem gamesKeys_messageCreate_nodup (js : StringOps) (message : Message) (s : State)
    (h : (gamesKeys s.games).Nodup) :
    (gamesKeys (messageCreate js message s).games).Nodup := by
  have hstart : (gamesKeys
      (if jsStartsWith message.content "!start" ∧ message.channel.type = 0 then
        match message.mentions with
        | p0 :: p1 :: _ => startGame p0 p1 message.channel s
        | _ => s
      else s).games).Nodup := by
    split
    · split
      · exact gamesKeys_startGame_nodup _ _ _ _ h
      · exact h
    · exact h
  unfold messageCreate
  split
  · exact h
  · split
    · exact h
    · dsimp only
      split
      · split
        · exact hstart
        · next s2 hdm =>
          exact gamesKeys_guildCommands_nodup _ _
            (gamesKeys_directMessage_nodup js message _ s2 hstart hdm)
      · exact gamesKeys_guildCommands_nodup _ _ hstart

/-- C8, refuted as stated: after a start command for alice and bob in one channel
and a start command for alice and carol in another, both through the handler, alice
is a participant of two registered sessions. -/
theorem handler_player_in_two_sessions_counterexample :
    HandlerReachable StringOps.ascii
        (messageCreate StringOps.ascii startInArena2
          (messageCreate StringOps.ascii startInArena State.init))
      ∧ (sessionsOf (messageCreate StringOps.ascii startInArena2
          (messageCreate StringOps.ascii startInArena State.init)).games alice.id).map
            (fun g => (g.channel.id, g.player1.id, g.player2.id))
          = [(10, 1, 2), (11, 1, 3)] :=
  ⟨HandlerReachable.message startInArena2
    (HandlerReachable.message startInArena (HandlerReachable.init [] [])), by decide⟩

/-- C8, amended: in every state reached from the empty registry through the message
handler, the sessions of `games` are stored under pairwise distinct channel ids:
there is at most one session per channel, which is all the handler enforces. -/
theorem handler_one_session_per_channel (js : StringOps) (s : State)
    (h : HandlerReachable js s) : (gamesKeys s.games).Nodup := by
  induction h with
  | init db sent => simp [gamesKeys]
  | message m _ ih => exact gamesKeys_messageCreate_nodup js m _ ih

/-- After the two start commands the two sessions sit under the channel ids 10 and
11. -/
theorem handler_one_session_per_channel_witness :
    (gamesKeys (messageCreate StringOps.ascii startInArena2
      (messageCreate StringOps.ascii startInArena State.init)).games).Nodup :=
  handler_one_session_per_channel StringOps.ascii _
    (HandlerReachable.message startInArena2
      (HandlerReachable.message startInArena (HandlerReachable.init [] [])))

/-! ## Frame lemmas on the registry -/

theorem gamesGet_map_ne (games : List Game) (game : Game) (id : Nat)
    (h : id ≠ game.channel.id) :
    gamesGet (games.map (fun g => if g.channel.id = game.channel.id then game else g)) id
      = gamesGet games id := by
  unfold gamesGet
  induction games with
  | nil => rfl
  | cons x xs ih =>
    have hg : decide (game.channel.id = id) = false := by simpa using Ne.symm h
    by_cases hx : x.channel.id = game.channel.id
    · have hx' : decide (x.channel.id = id) = false := by
        simpa using fun e : x.channel.id = id => h (e.symm.trans hx)
      simp only [List.map_cons, List.find?_cons, if_pos hx, hg, hx']
      exact ih
    · by_cases hxi : x.channel.id = id
      · have hd : decide (x.channel.id = id) = true := by simpa using hxi
        simp only [List.map_cons, List.find?_cons, if_neg hx, hd]
      · have hd : decide (x.channel.id = id) = false := by simpa using hxi
        simp only [List.map_cons, List.find?_cons, if_neg hx, hd]
        exact ih

theorem gamesGet_syncGame_ne (game : Game) (s : State) (id : Nat)
    (h : id ≠ game.channel.id) :
    gamesGet (syncGame game s).games id = gamesGet s.games id :=
  gamesGet_map_ne s.games game id h

theorem gamesGet_gamesSet_ne (games : List Game) (game : Game) (id : Nat)
    (h : id ≠ game.channel.id) :
    gamesGet (gamesSet games game) id = gamesGet games id := by
  unfold gamesSet
  split
  · exact gamesGet_map_ne games game id h
  · unfold gamesGet
    rw [List.find?_append]
    cases hfind : List.find? (fun g => decide (g.channel.id = id)) games with
    | some g => rfl
    | none => simp [List.find?_cons, Ne.symm h]

theorem gamesGet_gamesDelete_ne (games : List Game) (id id' : Nat) (h : id ≠ id') :
    gamesGet (gamesDelete games id') id = gamesGet games id := by
  unfold gamesGet gamesDelete
  induction games with
  | nil => rfl
  | cons x xs ih =>
    by_cases hx : x.channel.id = id'
    · have hx' : decide (x.channel.id = id) = false := by
        simpa using fun e : x.channel.id = id => h (e.symm.trans hx)
      have hf : decide (x.channel.id ≠ id') = false := by simpa using hx
      simp only [List.filter_cons, hf, List.find?_cons, hx']
      exact ih
    · have hf : decide (x.channel.id ≠ id') = true := by simpa using hx
      by_cases hxi : x.channel.id = id
      · have hd : decide (x.channel.id = id) = true := by simpa using hxi
        simp only [List.filter_cons, hf, List.find?_cons, hd, if_true]
      · have hd : decide (x.channel.id = id) = false := by simpa using hxi
        simp only [List.filter_cons, hf, List.find?_cons, hd, if_true]
        exact ih

/-! ## Lemmas on the message handler -/

theorem jsStartsWith_reset {content : String} (h : jsStartsWith content "!reset" = true) :
    jsStartsWith content "!start" = false ∧ jsStartsWith content "!leaderboard" = false := by
  unfold jsStartsWith at *
  have e1 : "!reset".toList = ['!', 'r', 'e', 's', 'e', 't'] := rfl
  have e2 : "!start".toList = ['!', 's', 't', 'a', 'r', 't'] := rfl
  have e3 : "!leaderboard".toList
      = ['!', 'l', 'e', 'a', 'd', 'e', 'r', 'b', 'o', 'a', 'r', 'd'] := rfl
  rw [e1] at h
  rw [e2, e3]
  generalize content.toList = l at h ⊢
  match l with
  | [] => simp [List.isPrefixOf] at h
  | [_] => simp [List.isPrefixOf] at h
  | x :: y :: rest =>
    simp only [List.isPrefixOf, Bool.and_eq_true, beq_iff_eq] at h
    obtain ⟨hx, hy, -⟩ := h
    subst hx hy
    simp [List.isPrefixOf]

theorem guildCommands_of_dm (message : Message) (s : State) (h : message.channel.type = 1) :
    guildCommands message s = s := by
  simp [guildCommands, h]

theorem messageCreate_reset (js : StringOps) (message : Message) (s : State)
    (hbot : message.author.bot = false)
    (hcmd : jsStartsWith message.content "!reset" = true)
    (htype : message.channel.type = 0) :
    messageCreate js message s = resetCommand message s := by
  obtain ⟨h1, h2⟩ := jsStartsWith_reset hcmd
  simp [messageCreate, guildCommands, hbot, hcmd, htype, h1, h2]

/-! ## Reset and start -/

/-- C11: a reset command in a channel that has a session, whatever the round,
scores and pending moves of the session, removes it from `games` and leaves the
leaderboard table and the sessions of all other channels unchanged; a `startGame`
for the same channel afterwards registers a new session there. -/
theorem reset_removes_session (js : StringOps) (message : Message) (s : State) (game : Game)
    (player1 player2 : User)
    (hbot : message.author.bot = false)
    (hcmd : jsStartsWith message.content "!reset" = true)
    (htype : message.channel.type = 0)
    (hreg : gamesGet s.games message.channel.id = some game) :
    gamesGet (messageCreate js message s).games message.channel.id = none
    ∧ (messageCreate js message s).db = s.db
    ∧ (∀ id, id ≠ message.channel.id →
        gamesGet (messageCreate js message s).games id = gamesGet s.games id)
    ∧ ∃ g, gamesGet (startGame player1 player2 message.channel
          (messageCreate js message s)).games message.channel.id = some g
        ∧ g.player1 = player1 ∧ g.player2 = player2
        ∧ objGet g.scores player1.id = some 0 ∧ objGet g.scores player2.id = some 0
        ∧ g.round = 1 ∧ g.choices = [] := by
  have hgames : (messageCreate js message s).games = gamesDelete s.games message.channel.id := by
    rw [messageCreate_reset js message s hbot hcmd htype]
    simp [resetCommand, hreg]
  have hdb : (messageCreate js message s).db = s.db := by
    rw [messageCreate_reset js message s hbot hcmd htype]
    simp [resetCommand, hreg]
  refine ⟨?_, hdb, ?_, ?_⟩
  · rw [hgames]
    exact gamesGet_gamesDelete _ _
  · intro id hid
    rw [hgames]
    exact gamesGet_gamesDelete_ne _ _ _ hid
  · refine ⟨{ player1 := player1, player2 := player2,
              scores := objSet (objSet [] player1.id 0) player2.id 0,
              round := 1, choices := [], channel := message.channel },
      ?_, rfl, rfl, (objGet_start_scores _ _).1, (objGet_start_scores _ _).2, rfl, rfl⟩
    rw [startGame_games]
    exact gamesGet_gamesSet _
      { player1 := player1, player2 := player2,
        scores := objSet (objSet [] player1.id 0) player2.id 0,
        round := 1, choices := [], channel := message.channel }

/-- Alice leads bob 1-0 in round 2 of the arena and bob has a move pending; the reset
command empties the arena and keeps the leaderboard table. -/
theorem reset_removes_session_witness :
    gamesGet (messageCreate StringOps.ascii resetInArena
        (sampleState (sampleGame 1 0 2 [(2, "rock")]))).games arena.id = none
      ∧ (messageCreate StringOps.ascii resetInArena
        (sampleState (sampleGame 1 0 2 [(2, "rock")]))).db
          = (sampleState (sampleGame 1 0 2 [(2, "rock")])).db :=
  have h := reset_removes_session StringOps.ascii resetInArena
    (sampleState (sampleGame 1 0 2 [(2, "rock")])) (sampleGame 1 0 2 [(2, "rock")]) alice carol
    (by decide) (by decide) (by decide) (by decide)
  ⟨h.1, h.2.1⟩

/-- C12: on a channel without a session, `startGame` for two players of distinct ids
registers under the channel id a session of exactly these two players with both
scores 0, round 1 and no pending moves, added after the sessions already there, and
the sessions of every other channel are unchanged. -/
theorem startGame_registers (s : State) (player1 player2 : User) (channel : Channel)
    (hfree : gamesGet s.games channel.id = none)
    (hne : player1.id ≠ player2.id) :
    gamesGet (startGame player1 player2 channel s).games channel.id
        = some { player1 := player1, player2 := player2,
                 scores := [(player1.id, 0), (player2.id, 0)],
                 round := 1, choices := [], channel := channel }
    ∧ (startGame player1 player2 channel s).games
        = s.games ++ [{ player1 := player1, player2 := player2,
                        scores := [(player1.id, 0), (player2.id, 0)],
                        round := 1, choices := [], channel := channel }]
    ∧ ∀ id, id ≠ channel.id →
        gamesGet (startGame player1 player2 channel s).games id = gamesGet s.games id := by
  have hsc : objSet (objSet ([] : Obj Nat) player1.id 0) player2.id 0
      = [(player1.id, 0), (player2.id, 0)] := by
    simp [objSet, objGet_cons, objGet_nil, hne]
  have hg := startGame_games player1 player2 channel s
  rw [hsc] at hg
  refine ⟨?_, ?_, ?_⟩
  · rw [hg]
    exact gamesGet_gamesSet s.games
      { player1 := player1, player2 := player2,
        scores := [(player1.id, 0), (player2.id, 0)],
        round := 1, choices := [], channel := channel }
  · rw [hg]
    simp [gamesSet, hfree]
  · intro id hid
    rw [hg]
    exact gamesGet_gamesSet_ne s.games _ id hid

/-- Alice and bob play in the arena; `startGame carol bob` in the second arena adds a
session of carol and bob there. -/
theorem startGame_registers_witness :
    gamesGet (startGame carol bob arena2 (sampleState (sampleGame 1 0 2 []))).games arena2.id
      = some { player1 := carol, player2 := bob, scores := [(carol.id, 0), (bob.id, 0)],
               round := 1, choices := [], channel := arena2 } :=
  (startGame_registers (sampleState (sampleGame 1 0 2 [])) carol bob arena2
    (by decide) (by decide)).1

/-! ## Direct messages that are not moves of a participant -/

/-- C13: a direct message of an author who is in no registered session, and a direct
message whose text after the first character, lower-cased, is not one of the three
move tokens, leave the registry and the leaderboard table unchanged. -/
theorem directMessage_rejected (js : StringOps) (message : Message) (s : State)
    (htype : message.channel.type = 1)
    (h : sessionsOf s.games message.author.id = []
      ∨ js.toLowerCase (js.slice1 message.content) ∉ validMoves) :
    (messageCreate js message s).games = s.games
    ∧ (messageCreate js message s).db = s.db := by
  have hnot0 : ¬ message.channel.type = 0 := by omega
  by_cases hbot : message.author.bot = true
  · simp [messageCreate, hbot]
  · have hcreate : messageCreate js message s =
        match directMessage js message s with
        | none =>
          messageReply message
            ("You're not currently in a game. Start a new game in a server channel with "
              ++ "`!start @player1 @player2`.") s
        | some s2 => guildCommands message s2 := by
      simp [messageCreate, hbot, htype]
    rw [hcreate]
    unfold directMessage
    rcases h with h | h
    · have hfind : s.games.find? (fun g => decide (g.player1.id = message.author.id)
          || decide (g.player2.id = message.author.id)) = none := by
        rw [List.find?_eq_none]
        intro g hg
        have : g ∉ sessionsOf s.games message.author.id := by simp [h]
        intro hp
        exact this (List.mem_filter.2 ⟨hg, hp⟩)
      simp [hfind]
    · cases hfind : s.games.find? (fun g => decide (g.player1.id = message.author.id)
          || decide (g.player2.id = message.author.id)) with
      | none => simp
      | some game => simp [h, guildCommands_of_dm message _ htype]

/-- Carol is in no session and sends `!rock`; alice is in a session and sends
`!lizard`: the registry is unchanged both times. -/
theorem directMessage_rejected_witness :
    (messageCreate StringOps.ascii carolRock (sampleState (sampleGame 1 0 2 []))).games
        = (sampleState (sampleGame 1 0 2 [])).games
      ∧ (messageCreate StringOps.ascii aliceLizard (sampleState (sampleGame 1 0 2 []))).games
        = (sampleState (sampleGame 1 0 2 [])).games :=
  ⟨(directMessage_rejected StringOps.ascii carolRock (sampleState (sampleGame 1 0 2 []))
      (by decide) (Or.inl (by decide))).1,
    (directMessage_rejected StringOps.ascii aliceLizard (sampleState (sampleGame 1 0 2 []))
      (by decide) (Or.inr (by decide))).1⟩

/-! ## The first move of a round -/

/-- C18: in a registered session with no pending moves, a move of a player (in
particular a valid move of one of two participants with distinct ids) only records
the pending move: the session keeps scores, round and players, the registry keeps
its channel ids and the sessions of the other channels, and the leaderboard table
and the sent texts are unchanged. -/
theorem handleChoice_first_move (s : State) (game : Game) (player : User) (choice : String)
    (hreg : gamesGet s.games game.channel.id = some game)
    (hempty : game.choices = []) :
    (handleChoice player choice game s).1 = { game with choices := [(player.id, choice)] }
    ∧ gamesGet (handleChoice player choice game s).2.games game.channel.id
        = some { game with choices := [(player.id, choice)] }
    ∧ gamesKeys (handleChoice player choice game s).2.games = gamesKeys s.games
    ∧ (∀ id, id ≠ game.channel.id →
        gamesGet (handleChoice player choice game s).2.games id = gamesGet s.games id)
    ∧ (handleChoice player choice game s).2.db = s.db
    ∧ (handleChoice player choice game s).2.sent = s.sent := by
  have hset : objSet game.choices player.id choice = [(player.id, choice)] := by
    rw [hempty]; simp [objSet, objGet_nil]
  have hk : ¬ (objKeys (objSet game.choices player.id choice)).length = 2 := by
    rw [hset]; simp [objKeys]
  have hfst : (handleChoice player choice game s).1
      = { game with choices := [(player.id, choice)] } := by
    rw [handleChoice_fst, if_neg hk, hset]
  have hgames : (handleChoice player choice game s).2.games
      = (syncGame { game with choices := [(player.id, choice)] } s).games := by
    rw [handleChoice_games, if_neg (fun h => hk h.1), hfst]
  refine ⟨hfst, ?_, ?_, ?_, ?_, ?_⟩
  · rw [hgames]
    have := gamesGet_syncGame { game with choices := [(player.id, choice)] } s
    simpa [hreg] using this
  · rw [hgames]
    exact gamesKeys_syncGame _ s
  · intro id hid
    rw [hgames]
    exact gamesGet_syncGame_ne _ s id hid
  · rw [handleChoice_db, if_neg hk]
  · simp [handleChoice, hk, syncGame]

/-- Round 3 at 1-1 with nothing pending: bob submits scissors, and the session
object differs from the old one only in the pending move. -/
theorem handleChoice_first_move_witness :
    (handleChoice bob "scissors" (sampleGame 1 1 3 []) (sampleState (sampleGame 1 1 3 []))).1
      = { sampleGame 1 1 3 [] with choices := [(bob.id, "scissors")] } :=
  (handleChoice_first_move (sampleState (sampleGame 1 1 3 [])) (sampleGame 1 1 3 []) bob
    "scissors" (by decide) (by decide)).1

/-! ## The leaderboard listing -/

theorem selectTop10_sorted (db : List Row) :
    (db.insertionSort (fun a b => a.wins ≥ b.wins)).Sorted (fun a b => a.wins ≥ b.wins) := by
  haveI : IsTotal Row (fun a b => a.wins ≥ b.wins) := ⟨fun a b => Nat.le_total b.wins a.wins⟩
  haveI : IsTrans Row (fun a b => a.wins ≥ b.wins) :=
    ⟨fun a b c hab hbc => Nat.le_trans hbc hab⟩
  exact List.sorted_insertionSort _ db

/-- C14: `displayLeaderboard` sends one text to the channel: the header followed by
one numbered line per listed row, in order, or the empty-leaderboard message when no
row is listed.  The listed rows are rows of the table, in non-increasing order of
wins and at most 10; together with the rows left out they are the whole table, and
no row left out has more wins than a listed one; on an empty table no row is
listed. -/
theorem displayLeaderboard_listing (channel : Channel) (s : State) :
    (displayLeaderboard channel s).sent
        = s.sent ++ [Sent.toChannel channel.id
            (if selectTop10 s.db = [] then "The leaderboard is empty."
              else "🏆 **Leaderboard** 🏆\n" ++ "\n".intercalate
                ((selectTop10 s.db).enum.map (fun ie =>
                  toString (ie.1 + 1) ++ ". " ++ ie.2.username ++ " - "
                    ++ toString ie.2.wins ++ " wins")))]
    ∧ (∀ r ∈ selectTop10 s.db, r ∈ s.db)
    ∧ (selectTop10 s.db).Pairwise (fun a b => a.wins ≥ b.wins)
    ∧ (selectTop10 s.db).length ≤ 10
    ∧ (∃ rest, (selectTop10 s.db ++ rest).Perm s.db
        ∧ ∀ u ∈ rest, ∀ l ∈ selectTop10 s.db, u.wins ≤ l.wins)
    ∧ (s.db = [] → selectTop10 s.db = []
        ∧ (displayLeaderboard channel s).sent
            = s.sent ++ [Sent.toChannel channel.id "The leaderboard is empty."]) := by
  have hsorted := selectTop10_sorted s.db
  have hperm := List.perm_insertionSort (fun a b : Row => a.wins ≥ b.wins) s.db
  refine ⟨?_, ?_, ?_, ?_, ?_, ?_⟩
  · by_cases hsel : selectTop10 s.db = []
    · simp [displayLeaderboard, hsel, channelSend]
    · have hlen : ¬ (selectTop10 s.db).length = 0 := fun h => hsel (List.length_eq_zero.1 h)
      simp [displayLeaderboard, hsel, hlen, channelSend]
  · intro r hr
    exact hperm.subset (List.mem_of_mem_take hr)
  · exact List.Pairwise.sublist (List.take_sublist _ _) hsorted
  · exact List.length_take_le _ _
  · refine ⟨(s.db.insertionSort (fun a b => a.wins ≥ b.wins)).drop 10, ?_, ?_⟩
    · unfold selectTop10
      rw [List.take_append_drop]
      exact hperm
    · intro u hu l hl
      exact hsorted.rel_of_mem_take_of_mem_drop hl hu
  · intro hdb
    have hsel : selectTop10 s.db = [] := by rw [hdb]; rfl
    refine ⟨hsel, ?_⟩
    simp [displayLeaderboard, hsel, channelSend]

/-- On the table of alice with 2 wins, bob with 5 and carol with 2 the arena gets
the header and the three rows with bob first, alice and carol after him in the order
of the table; on the empty table it gets the empty-leaderboard text. -/
theorem displayLeaderboard_listing_witness :
    (displayLeaderboard arena sampleBoard).sent
        = [Sent.toChannel 10
            "🏆 **Leaderboard** 🏆\n1. bob - 5 wins\n2. alice - 2 wins\n3. carol - 2 wins"]
      ∧ (displayLeaderboard arena State.init).sent
          = [Sent.toChannel 10 "The leaderboard is empty."] :=
  ⟨(displayLeaderboard_listing arena sampleBoard).1.trans (by decide),
    ((displayLeaderboard_listing arena State.init).2.2.2.2.2 (by decide)).2⟩

/-! ## Pending moves -/

theorem objKeys_objSet_length {α : Type} (o : Obj α) (k : Nat) (v : α) :
    (objKeys (objSet o k v)).length ≤ (objKeys o).length + 1 := by
  unfold objSet objKeys
  split <;> simp

theorem pendingBelowTwo_handleChoice_fst (player : User) (choice : String) (game : Game)
    (s : State) (h : (objKeys game.choices).length < 2) :
    (objKeys (objSet game.choices player.id choice)).length ≤ 2
      ∧ (objKeys (handleChoice player choice game s).1.choices).length < 2 := by
  have hle := objKeys_objSet_length game.choices player.id choice
  refine ⟨by omega, ?_⟩
  rw [handleChoice_fst]
  split
  · simp [objKeys]
  · next hk =>
    show (objKeys (objSet game.choices player.id choice)).length < 2
    omega

theorem pendingBelowTwo_reachable {s : State} (h : Reachable s) : PendingBelowTwo s.games := by
  induction h with
  | init db sent => intro g hg; simp at hg
  | startGame player1 player2 channel _ ih =>
    intro g hg
    rw [startGame_games] at hg
    rcases mem_gamesSet hg with rfl | hold
    · simp [objKeys]
    · exact ih g hold
  | @handleChoice s player choice game _ hreg ih =>
    intro g hg
    have hfst := (pendingBelowTwo_handleChoice_fst player choice game s
      (ih game (mem_of_gamesGet hreg))).2
    rw [handleChoice_games] at hg
    split at hg
    · rcases mem_syncGame (mem_gamesDelete hg).1 with rfl | hold
      · exact hfst
      · exact ih g hold
    · rcases mem_syncGame hg with rfl | hold
      · exact hfst
      · exact ih g hold
  | reset message _ ih =>
    intro g hg
    unfold resetCommand at hg
    split at hg
    · exact ih g (mem_gamesDelete hg).1
    · exact ih g hg

/-- C15: in every state reached from the empty registry by `startGame`,
`handleChoice` and reset, each registered session has fewer than 2 pending moves;
and in any further `handleChoice` on such a state the session object holds at most 2
pending moves after the write of the move and fewer than 2 when the call returns. -/
theorem reachable_pending_bounded (s : State) (h : Reachable s) :
    (∀ g ∈ s.games, (objKeys g.choices).length < 2)
    ∧ ∀ (player : User) (choice : String) (game : Game),
        gamesGet s.games game.channel.id = some game →
        (objKeys (objSet game.choices player.id choice)).length ≤ 2
          ∧ (objKeys (handleChoice player choice game s).1.choices).length < 2 := by
  refine ⟨pendingBelowTwo_reachable h, ?_⟩
  intro player choice game hreg
  exact pendingBelowTwo_handleChoice_fst player choice game s
    (pendingBelowTwo_reachable h game (mem_of_gamesGet hreg))

/-- After `startGame alice bob arena` and a move of alice the session holds one
pending move; a move of bob then makes two for a moment and none on return. -/
theorem reachable_pending_bounded_witness :
    (objKeys (objSet (sampleGame 0 0 1 [(1, "rock")]).choices bob.id "paper")).length ≤ 2
      ∧ (objKeys (handleChoice bob "paper" (sampleGame 0 0 1 [(1, "rock")])
          (handleChoice alice "rock" (sampleGame 0 0 1 [])
            (startGame alice bob arena State.init)).2).1.choices).length < 2 :=
  (reachable_pending_bounded
    (handleChoice alice "rock" (sampleGame 0 0 1 []) (startGame alice bob arena State.init)).2
    (Reachable.handleChoice alice "rock" (sampleGame 0 0 1 [])
      (Reachable.startGame alice bob arena (Reachable.init [] [])) (by decide))).2
    bob "paper" (sampleGame 0 0 1 [(1, "rock")]) (by decide)

/-! ## Wins in the leaderboard table -/

@[simp] theorem startGame_db (player1 player2 : User) (channel : Channel) (s : State) :
    (startGame player1 player2 channel s).db = s.db := by
  simp [startGame]

@[simp] theorem resetCommand_db (message : Message) (s : State) :
    (resetCommand message s).db = s.db := by
  unfold resetCommand
  split <;> rfl

theorem rowsKept_refl (db : List Row) : RowsKept db db :=
  ⟨db, [], by simp, List.forall₂_same.2 (fun _ _ => ⟨rfl, Nat.le_refl _⟩)⟩

theorem rowsKept_incrementWin (userId : Nat) (username : String) (db : List Row) :
    RowsKept db (incrementWin userId username db) := by
  unfold incrementWin
  split
  · refine ⟨_, [], (List.append_nil _).symm, ?_⟩
    rw [List.forall₂_map_right_iff]
    apply List.forall₂_same.2
    intro r _
    by_cases h : r.userId = userId <;> simp [h]
  · exact ⟨db, _, rfl, List.forall₂_same.2 (fun _ _ => ⟨rfl, Nat.le_refl _⟩)⟩

theorem rowsKept_handleChoice (player : User) (choice : String) (game : Game) (s : State) :
    RowsKept s.db (handleChoice player choice game s).2.db := by
  rw [handleChoice_db]
  split
  · split
    · exact rowsKept_incrementWin _ _ _
    · split
      · exact rowsKept_incrementWin _ _ _
      · exact rowsKept_refl _
  · exact rowsKept_refl _

theorem wins_pos_incrementWin (userId : Nat) (username : String) (db : List Row)
    (h : ∀ r ∈ db, 1 ≤ r.wins) : ∀ r ∈ incrementWin userId username db, 1 ≤ r.wins := by
  unfold incrementWin
  split
  · intro r hr
    obtain ⟨x, hx, rfl⟩ := List.mem_map.1 hr
    have := h x hx
    by_cases hu : x.userId = userId
    · simp [hu]
    · simpa [hu] using this
  · intro r hr
    rcases List.mem_append.1 hr with hr | hr
    · exact h r hr
    · have : r = { userId := userId, username := username, wins := 1 } := by simpa using hr
      rw [this]

theorem wins_pos_fromEmptyTable {s : State} (h : FromEmptyTable s) :
    ∀ r ∈ s.db, 1 ≤ r.wins := by
  induction h with
  | init games sent => intro r hr; simp at hr
  | startGame player1 player2 channel _ ih => simpa using ih
  | @handleChoice s player choice game _ _ ih =>
    rw [handleChoice_db]
    split
    · split
      · exact wins_pos_incrementWin _ _ _ ih
      · split
        · exact wins_pos_incrementWin _ _ _ ih
        · exact ih
    · exact ih
  | reset message _ ih => simpa using ih
  | incrementWin userId username _ ih => exact wins_pos_incrementWin _ _ _ ih

/-- C16: starting from an empty leaderboard table, after any sequence of
`startGame`, `handleChoice`, reset and `incrementWin` every row has at least one
win; and each of these operations keeps every row of the table, in its place and
with at least as many wins as before. -/
theorem leaderboard_wins_positive (s : State) (h : FromEmptyTable s) :
    (∀ r ∈ s.db, 1 ≤ r.wins)
    ∧ (∀ (player1 player2 : User) (channel : Channel),
        RowsKept s.db (startGame player1 player2 channel s).db)
    ∧ (∀ (player : User) (choice : String) (game : Game),
        gamesGet s.games game.channel.id = some game →
        RowsKept s.db (handleChoice player choice game s).2.db)
    ∧ (∀ message : Message, RowsKept s.db (resetCommand message s).db)
    ∧ (∀ (userId : Nat) (username : String),
        RowsKept s.db (incrementWin userId username s.db)) := by
  refine ⟨wins_pos_fromEmptyTable h, ?_, ?_, ?_, ?_⟩
  · intro player1 player2 channel
    rw [startGame_db]
    exact rowsKept_refl _
  · intro player choice game _
    exact rowsKept_handleChoice player choice game s
  · intro message
    rw [resetCommand_db]
    exact rowsKept_refl _
  · intro userId username
    exact rowsKept_incrementWin userId username s.db

/-- Alice leads 2-1 with rock pending, bob submits scissors and the match ends: the
table, empty before, holds alice with one win, and a further win of alice keeps her
row. -/
theorem leaderboard_wins_positive_witness :
    1 ≤ ({ userId := 1, username := "alice", wins := 1 } : Row).wins
      ∧ RowsKept (handleChoice bob "scissors" (sampleGame 2 1 4 [(1, "rock")])
          (sampleState (sampleGame 2 1 4 [(1, "rock")]))).2.db
        (incrementWin 1 "alice" (handleChoice bob "scissors" (sampleGame 2 1 4 [(1, "rock")])
          (sampleState (sampleGame 2 1 4 [(1, "rock")]))).2.db) :=
  have h := leaderboard_wins_positive
    (handleChoice bob "scissors" (sampleGame 2 1 4 [(1, "rock")])
      (sampleState (sampleGame 2 1 4 [(1, "rock")]))).2
    (FromEmptyTable.handleChoice bob "scissors" (sampleGame 2 1 4 [(1, "rock")])
      (FromEmptyTable.init [sampleGame 2 1 4 [(1, "rock")]] []) (by decide))
  ⟨h.1 { userId := 1, username := "alice", wins := 1 } (by decide), h.2.2.2.2 1 "alice"⟩

/-! ## The order of the two moves of a round -/

/-- A registered session is gone after `handleChoice` exactly when the round was
resolved and a score is 3. -/
theorem handleChoice_removed_iff (player : User) (choice : String) (game : Game) (s : State)
    (hreg : gamesGet s.games game.channel.id = some game) :
    gamesGet (handleChoice player choice game s).2.games game.channel.id = none
      ↔ ((objKeys (objSet game.choices player.id choice)).length = 2
          ∧ (objGet (handleChoice player choice game s).1.scores game.player1.id = some 3
            ∨ objGet (handleChoice player choice game s).1.scores game.player2.id = some 3)) := by
  have hsync : gamesGet (syncGame (handleChoice player choice game s).1 s).games game.channel.id
      = some (handleChoice player choice game s).1 := by
    have := gamesGet_syncGame (handleChoice player choice game s).1 s
    rw [handleChoice_fst_channel, hreg] at this
    simpa using this
  rw [handleChoice_games]
  split
  · next h => simp [gamesGet_gamesDelete, h]
  · next h => simp [hsync, h]

/-- The round texts and scores depend on the pending moves only through the two
reads `choices[player1.id]` and `choices[player2.id]`. -/
theorem scoreRound_congr (game : Game) (c1 c2 : Obj String)
    (h1 : objGet c1 game.player1.id = objGet c2 game.player1.id)
    (h2 : objGet c1 game.player2.id = objGet c2 game.player2.id) :
    (scoreRound { game with choices := c1 }).1.scores
        = (scoreRound { game with choices := c2 }).1.scores
      ∧ (scoreRound { game with choices := c1 }).2 = (scoreRound { game with choices := c2 }).2 := by
  simp only [scoreRound, h1, h2]
  cases roundWinner (objGet c2 game.player1.id) (objGet c2 game.player2.id) <;> exact ⟨rfl, rfl⟩

/-- The call of `handleChoice` that does not complete the pair of moves. -/
theorem handleChoice_pending (player : User) (choice : String) (game : Game) (s : State)
    (hk : ¬ (objKeys (objSet game.choices player.id choice)).length = 2) :
    handleChoice player choice game s
      = ({ game with choices := objSet game.choices player.id choice },
          syncGame { game with choices := objSet game.choices player.id choice } s) := by
  simp [handleChoice, hk]

/-- The call of `handleChoice` that completes the pair of moves, with the state
before the texts of `updateRound`, `updateScore` and `checkGameEnd` written out. -/
theorem handleChoice_resolved (player : User) (choice : String) (game : Game) (s : State)
    (hk : (objKeys (objSet game.choices player.id choice)).length = 2) :
    handleChoice player choice game s
      = ({ player1 := game.player1, player2 := game.player2,
           scores := (scoreRound { game with choices := objSet game.choices player.id choice }).1.scores,
           round := game.round + 1, choices := [], channel := game.channel },
         checkGameEnd
           { player1 := game.player1, player2 := game.player2,
             scores := (scoreRound { game with choices := objSet game.choices player.id choice }).1.scores,
             round := game.round + 1, choices := [], channel := game.channel }
           (updateScore game.channel (updateRound game.channel
             { games := (syncGame
                 { player1 := game.player1, player2 := game.player2,
                   scores := (scoreRound
                     { game with choices := objSet game.choices player.id choice }).1.scores,
                   round := game.round + 1, choices := [], channel := game.channel } s).games,
               db := s.db,
               sent := s.sent ++ [Sent.toChannel game.channel.id
                 (scoreRound { game with choices := objSet game.choices player.id choice }).2] }))) := by
  have hgames : ∀ (c : Nat) (g1 g2 g3 : Game), g1.channel.id = c → g2.channel.id = c →
      List.map (fun g => if g.channel.id = c then g3 else g)
          (List.map (fun g => if g.channel.id = c then g2 else g)
            (List.map (fun g => if g.channel.id = c then g1 else g) s.games))
        = List.map (fun g => if g.channel.id = c then g3 else g) s.games := by
    intro c g1 g2 g3 h1 h2
    simp only [List.map_map]
    apply List.map_congr_left
    intro x _
    by_cases hx : x.channel.id = c <;> simp [hx, h1, h2]
  simp only [handleChoice, hk, if_true, resetRound, syncGame, channelSend, scoreRound_round,
    scoreRound_channel, scoreRound_player1, scoreRound_player2]
  rw [hgames game.channel.id]
  · rfl
  · simp

/-- C19: in a registered session with no pending moves, the move `x` of one player
followed by the move `y` of another player with a different id leaves the same
session object, the same registry, the same leaderboard table and the same sent
texts as `y` followed by `x`. -/
theorem handleChoice_arrival_order (s : State) (game : Game) (playerA playerB : User)
    (x y : String)
    (hreg : gamesGet s.games game.channel.id = some game)
    (hne : playerA.id ≠ playerB.id)
    (hempty : game.choices = []) :
    handleChoice playerB y (handleChoice playerA x game s).1 (handleChoice playerA x game s).2
        = handleChoice playerA x (handleChoice playerB y game s).1
            (handleChoice playerB y game s).2
    ∧ (gamesGet (handleChoice playerB y (handleChoice playerA x game s).1
            (handleChoice playerA x game s).2).2.games game.channel.id
          = some (handleChoice playerB y (handleChoice playerA x game s).1
              (handleChoice playerA x game s).2).1
        ∨ gamesGet (handleChoice playerB y (handleChoice playerA x game s).1
            (handleChoice playerA x game s).2).2.games game.channel.id = none) := by
  refine ⟨?_, ?_⟩
  swap
  · have hregA : gamesGet (handleChoice playerA x game s).2.games
        (handleChoice playerA x game s).1.channel.id = some (handleChoice playerA x game s).1 := by
      rw [handleChoice_fst_channel]
      rcases handleChoice_registered playerA x game s hreg with h | h
      · exact h
      · have hk : ¬ (objKeys (objSet game.choices playerA.id x)).length = 2 := by
          rw [hempty]; simp [objSet, objGet_nil, objKeys]
        rw [(handleChoice_removed_iff playerA x game s hreg)] at h
        exact absurd h.1 hk
    have := handleChoice_registered playerB y _ _ hregA
    rwa [handleChoice_fst_channel] at this
  have hne' : playerB.id ≠ playerA.id := Ne.symm hne
  have hsetA : objSet game.choices playerA.id x = [(playerA.id, x)] := by
    rw [hempty]; simp [objSet, objGet_nil]
  have hsetB : objSet game.choices playerB.id y = [(playerB.id, y)] := by
    rw [hempty]; simp [objSet, objGet_nil]
  have hA := handleChoice_pending playerA x game s (by rw [hsetA]; simp [objKeys])
  have hB := handleChoice_pending playerB y game s (by rw [hsetB]; simp [objKeys])
  rw [hsetA] at hA
  rw [hsetB] at hB
  rw [hA, hB]
  have hAB : objSet [(playerA.id, x)] playerB.id y = [(playerA.id, x), (playerB.id, y)] :=
    objSet_single_ne _ _ _ _ hne
  have hBA : objSet [(playerB.id, y)] playerA.id x = [(playerB.id, y), (playerA.id, x)] :=
    objSet_single_ne _ _ _ _ hne'
  rw [handleChoice_resolved playerB y _ _ (by simp [hAB, objKeys]),
    handleChoice_resolved playerA x _ _ (by simp [hBA, objKeys])]
  simp only [hAB, hBA]
  have hlook1 : objGet [(playerA.id, x), (playerB.id, y)] game.player1.id
      = objGet [(playerB.id, y), (playerA.id, x)] game.player1.id := by
    by_cases h1 : playerA.id = game.player1.id <;> by_cases h2 : playerB.id = game.player1.id <;>
      simp_all [objGet_cons, objGet_nil]
  have hlook2 : objGet [(playerA.id, x), (playerB.id, y)] game.player2.id
      = objGet [(playerB.id, y), (playerA.id, x)] game.player2.id := by
    by_cases h1 : playerA.id = game.player2.id <;> by_cases h2 : playerB.id = game.player2.id <;>
      simp_all [objGet_cons, objGet_nil]
  obtain ⟨hsc, htxt⟩ := scoreRound_congr game _ _ hlook1 hlook2
  have hsync : ∀ (c1 : Obj String) (final : Game), final.channel = game.channel →
      (syncGame final (syncGame { game with choices := c1 } s)).games
        = (syncGame final s).games := by
    intro c1 final hch
    exact syncGame_games_twice { game with choices := c1 } final hch s
  simp only [hsc, htxt, syncGame_db]
  rw [hsync, hsync] <;> rfl

/-- Round 4 at 2-1 with nothing pending: alice's rock then bob's scissors, and bob's
scissors then alice's rock, end in the same session object and state. -/
theorem handleChoice_arrival_order_witness :
    handleChoice bob "scissors"
        (handleChoice alice "rock" (sampleGame 2 1 4 []) (sampleState (sampleGame 2 1 4 []))).1
        (handleChoice alice "rock" (sampleGame 2 1 4 []) (sampleState (sampleGame 2 1 4 []))).2
      = handleChoice alice "rock"
        (handleChoice bob "scissors" (sampleGame 2 1 4 []) (sampleState (sampleGame 2 1 4 []))).1
        (handleChoice bob "scissors" (sampleGame 2 1 4 []) (sampleState (sampleGame 2 1 4 []))).2 :=
  (handleChoice_arrival_order (sampleState (sampleGame 2 1 4 [])) (sampleGame 2 1 4 []) alice bob
    "rock" "scissors" (by decide) (by decide) (by decide)).1

/-! ## The order of the two participants -/

theorem roundWinner_swap :
    ∀ a ∈ validMoves, ∀ b ∈ validMoves,
      roundWinner (some b) (some a) = (roundWinner (some a) (some b)).swap := by
  decide

theorem secondMove_swapPlayers {game : Game} {player : User} {choice a b : String}
    (h : SecondMove game player choice a b) :
    SecondMove (swapPlayers game) player choice b a := by
  rcases h with h | h
  · exact Or.inr h
  · exact Or.inl h

/-- For every score map: the round resolved in the session with the participants in
one order and in the other order gives the same scores, the same round counter and
the same decision whether the session is removed, and the same leaderboard table
unless the round leaves both scores at 3. -/
theorem handleChoice_swapPlayers (s : State) (game : Game) (player : User)
    (choice a b : String)
    (hreg : gamesGet s.games game.channel.id = some game)
    (hne : game.player1.id ≠ game.player2.id)
    (ha : a ∈ validMoves) (hb : b ∈ validMoves)
    (hmove : SecondMove game player choice a b) :
    (handleChoice player choice (swapPlayers game) (syncGame (swapPlayers game) s)).1.scores
        = (handleChoice player choice game s).1.scores
    ∧ (handleChoice player choice (swapPlayers game) (syncGame (swapPlayers game) s)).1.round
        = (handleChoice player choice game s).1.round
    ∧ (gamesGet (handleChoice player choice (swapPlayers game)
          (syncGame (swapPlayers game) s)).2.games game.channel.id = none
        ↔ gamesGet (handleChoice player choice game s).2.games game.channel.id = none)
    ∧ (¬ (objGet (handleChoice player choice game s).1.scores game.player1.id = some 3
          ∧ objGet (handleChoice player choice game s).1.scores game.player2.id = some 3) →
        (handleChoice player choice (swapPlayers game) (syncGame (swapPlayers game) s)).2.db
          = (handleChoice player choice game s).2.db) := by
  have hne' : (swapPlayers game).player1.id ≠ (swapPlayers game).player2.id := Ne.symm hne
  have hmove' := secondMove_swapPlayers hmove
  have hreg' : gamesGet (syncGame (swapPlayers game) s).games (swapPlayers game).channel.id
      = some (swapPlayers game) := by
    rw [gamesGet_syncGame]
    have hch : (swapPlayers game).channel.id = game.channel.id := rfl
    rw [hch, hreg]
    rfl
  obtain ⟨hk, -, -⟩ := secondMove_choices hne hmove
  have hk' : (objKeys (objSet (swapPlayers game).choices player.id choice)).length = 2 := hk
  have hscores : (handleChoice player choice (swapPlayers game)
      (syncGame (swapPlayers game) s)).1.scores = (handleChoice player choice game s).1.scores := by
    rw [handleChoice_scores_secondMove s hne hmove,
      handleChoice_scores_secondMove (syncGame (swapPlayers game) s) hne' hmove',
      roundWinner_swap a ha b hb]
    cases roundWinner (some a) (some b) <;> rfl
  refine ⟨hscores, ?_, ?_, ?_⟩
  · rw [handleChoice_fst, handleChoice_fst, if_pos hk, if_pos hk']
    rfl
  · have h1 := handleChoice_removed_iff player choice game s hreg
    have h2 := handleChoice_removed_iff player choice (swapPlayers game)
      (syncGame (swapPlayers game) s) hreg'
    have hch : (swapPlayers game).channel.id = game.channel.id := rfl
    have hp1 : (swapPlayers game).player1 = game.player2 := rfl
    have hp2 : (swapPlayers game).player2 = game.player1 := rfl
    rw [hch, hscores, hp1, hp2] at h2
    rw [h1, h2]
    constructor
    · rintro ⟨_, h | h⟩
      · exact ⟨hk, Or.inr h⟩
      · exact ⟨hk, Or.inl h⟩
    · rintro ⟨_, h | h⟩
      · exact ⟨hk', Or.inr h⟩
      · exact ⟨hk', Or.inl h⟩
  · intro hnot
    have hp1 : (swapPlayers game).player1 = game.player2 := rfl
    have hp2 : (swapPlayers game).player2 = game.player1 := rfl
    rw [handleChoice_db, handleChoice_db, if_pos hk, if_pos hk', hscores, hp1, hp2, syncGame_db]
    by_cases h1 : objGet (handleChoice player choice game s).1.scores game.player1.id = some 3
    · have h2 : ¬ objGet (handleChoice player choice game s).1.scores game.player2.id = some 3 :=
        fun h2 => hnot ⟨h1, h2⟩
      simp [h1, h2]
    · by_cases h2 : objGet (handleChoice player choice game s).1.scores game.player2.id = some 3
      · simp [h1, h2]
      · simp [h1, h2]

/-- The state `matchPoint` is reachable. -/
theorem matchPoint_reachable : Reachable matchPoint :=
  Reachable.handleChoice alice "rock" (sampleGame 2 0 3 [])
    (Reachable.handleChoice bob "scissors" (sampleGame 1 0 2 [(1, "rock")])
      (Reachable.handleChoice alice "rock" (sampleGame 1 0 2 [])
        (Reachable.handleChoice bob "scissors" (sampleGame 0 0 1 [(1, "rock")])
          (Reachable.handleChoice alice "rock" (sampleGame 0 0 1 [])
            (Reachable.startGame alice bob arena (Reachable.init [] []))
            (by decide))
          (by decide))
        (by decide))
      (by decide))
    (by decide)

/-- C17: in every state reached from the empty registry by `startGame`,
`handleChoice` and reset, for every registered session of two players with distinct
ids, whatever its score map, and every pair of valid moves, the round resolved in
the session and in the same session with `player1` and `player2` exchanged gives
the same scores of the two players, the same round counter, the same decision
whether the session is removed and the same leaderboard table. -/
theorem handleChoice_player_order (s : State) (game : Game) (player : User)
    (choice a b : String)
    (hs : Reachable s)
    (hreg : gamesGet s.games game.channel.id = some game)
    (hne : game.player1.id ≠ game.player2.id)
    (ha : a ∈ validMoves) (hb : b ∈ validMoves)
    (hmove : SecondMove game player choice a b) :
    (handleChoice player choice (swapPlayers game) (syncGame (swapPlayers game) s)).1.scores
        = (handleChoice player choice game s).1.scores
    ∧ (handleChoice player choice (swapPlayers game) (syncGame (swapPlayers game) s)).1.round
        = (handleChoice player choice game s).1.round
    ∧ (gamesGet (handleChoice player choice (swapPlayers game)
          (syncGame (swapPlayers game) s)).2.games game.channel.id = none
        ↔ gamesGet (handleChoice player choice game s).2.games game.channel.id = none)
    ∧ (handleChoice player choice (swapPlayers game) (syncGame (swapPlayers game) s)).2.db
        = (handleChoice player choice game s).2.db := by
  obtain ⟨hscores, hround, hgone, hdb⟩ :=
    handleChoice_swapPlayers s game player choice a b hreg hne ha hb hmove
  refine ⟨hscores, hround, hgone, hdb ?_⟩
  obtain ⟨n1, n2, h1, h2, hn1, hn2⟩ := scoresBelowTarget_reachable hs game (mem_of_gamesGet hreg)
  have hne' : game.player2.id ≠ game.player1.id := Ne.symm hne
  rw [handleChoice_scores_secondMove s hne hmove]
  rintro ⟨h31, h32⟩
  cases hw : roundWinner (some a) (some b) <;> rw [hw] at h31 h32
  · rw [h1] at h31
    cases h31
    omega
  · simp only [objGet_objIncr, hne, if_false, h2] at h32
    cases h32
    omega
  · simp only [objGet_objIncr, hne', if_false, h1] at h31
    cases h31
    omega

/-- At `matchPoint` alice leads 2-0 with rock pending and bob submits scissors: with
the participants in either order the leaderboard table gets the same row, alice's
first win. -/
theorem handleChoice_player_order_witness :
    (handleChoice bob "scissors" (swapPlayers (sampleGame 2 0 3 [(1, "rock")]))
        (syncGame (swapPlayers (sampleGame 2 0 3 [(1, "rock")])) matchPoint)).2.db
        = (handleChoice bob "scissors" (sampleGame 2 0 3 [(1, "rock")]) matchPoint).2.db
      ∧ (handleChoice bob "scissors" (sampleGame 2 0 3 [(1, "rock")]) matchPoint).2.db
        = [{ userId := 1, username := "alice", wins := 1 }] :=
  ⟨(handleChoice_player_order matchPoint (sampleGame 2 0 3 [(1, "rock")]) bob "scissors"
      "rock" "scissors" matchPoint_reachable (by decide) (by decide) (by decide) (by decide)
      (by decide)).2.2.2,
    by decide⟩

/-! ## Rounds, scores and ties -/

theorem mem_gamesSet_ne {games : List Game} {game g : Game} (h : g ∈ gamesSet games game) :
    g = game ∨ (g ∈ games ∧ g.channel.id ≠ game.channel.id) := by
  unfold gamesSet at h
  split at h
  · obtain ⟨x, hx, rfl⟩ := List.mem_map.1 h
    by_cases hc : x.channel.id = game.channel.id
    · left; simp [hc]
    · right; simpa [hc] using hx
  · next hnone =>
    have hnone' : gamesGet games game.channel.id = none := by simpa using hnone
    rcases List.mem_append.1 h with h | h
    · right
      refine ⟨h, fun hid => ?_⟩
      have := List.find?_eq_none.1 hnone' g h
      simp [hid] at this
    · exact Or.inl (by simpa using h)

theorem mem_syncGame_ne {game g : Game} {s : State} (h : g ∈ (syncGame game s).games) :
    g = game ∨ (g ∈ s.games ∧ g.channel.id ≠ game.channel.id) := by
  obtain ⟨x, hx, rfl⟩ := List.mem_map.1 h
  by_cases hc : x.channel.id = game.channel.id
  · left; simp [hc]
  · right; simpa [hc] using hx

/-- Every reachable state carries a tie count. -/
theorem reachableWithTies_of_reachable {s : State} (h : Reachable s) :
    ∃ ties, ReachableWithTies s ties := by
  induction h with
  | init db sent => exact ⟨_, ReachableWithTies.init db sent⟩
  | startGame player1 player2 channel _ ih =>
    obtain ⟨ties, ht⟩ := ih
    exact ⟨_, ReachableWithTies.startGame player1 player2 channel ht⟩
  | handleChoice player choice game _ hreg ih =>
    obtain ⟨ties, ht⟩ := ih
    exact ⟨_, ReachableWithTies.handleChoice player choice game ht hreg⟩
  | reset message _ ih =>
    obtain ⟨ties, ht⟩ := ih
    exact ⟨_, ReachableWithTies.reset message ht⟩

/-- The session object after `handleChoice`, for two participants of distinct ids:
scores, tied rounds and 1 still add up to the round counter. -/
theorem roundsAccounted_handleChoice_fst (player : User) (choice : String) (game : Game)
    (s : State) (t n1 n2 : Nat) (hne : game.player1.id ≠ game.player2.id)
    (h1 : objGet game.scores game.player1.id = some n1)
    (h2 : objGet game.scores game.player2.id = some n2)
    (hsum : n1 + n2 + t + 1 = game.round) :
    ∃ m1 m2, objGet (handleChoice player choice game s).1.scores game.player1.id = some m1
      ∧ objGet (handleChoice player choice game s).1.scores game.player2.id = some m2
      ∧ m1 + m2 + (if resolvesTie player choice game then t + 1 else t) + 1
          = (handleChoice player choice game s).1.round := by
  have hne' : game.player2.id ≠ game.player1.id := Ne.symm hne
  rw [handleChoice_fst]
  by_cases hk : (objKeys (objSet game.choices player.id choice)).length = 2
  · rw [if_pos hk]
    simp only [resolvesTie, hk, decide_True, Bool.true_and, scoreRound]
    cases hw : roundWinner (objGet (objSet game.choices player.id choice) game.player1.id)
        (objGet (objSet game.choices player.id choice) game.player2.id)
    · exact ⟨n1, n2, h1, h2, by simp; omega⟩
    · exact ⟨n1 + 1, n2, by simp [objGet_objIncr, h1], by simp [objGet_objIncr, hne, h2],
        by simp; omega⟩
    · exact ⟨n1, n2 + 1, by simp [objGet_objIncr, hne', h1], by simp [objGet_objIncr, h2],
        by simp; omega⟩
  · rw [if_neg hk]
    exact ⟨n1, n2, h1, h2, by simp [resolvesTie, hk]; omega⟩

theorem roundsAccounted_reachable {s : State} {ties : Nat → Nat}
    (h : ReachableWithTies s ties) : RoundsAccounted s.games ties := by
  induction h with
  | init db sent => intro g hg; simp at hg
  | @startGame s ties player1 player2 channel _ ih =>
    intro g hg hne
    rw [startGame_games] at hg
    rcases mem_gamesSet_ne hg with rfl | ⟨hold, hid⟩
    · refine ⟨0, 0, (objGet_start_scores _ _).1, (objGet_start_scores _ _).2, ?_⟩
      simp
    · obtain ⟨n1, n2, h1, h2, hsum⟩ := ih g hold hne
      have hid' : g.channel.id ≠ channel.id := hid
      exact ⟨n1, n2, h1, h2, by rw [Function.update_noteq hid']; exact hsum⟩
  | @handleChoice s ties player choice game _ hreg ih =>
    intro g hg hne
    have hold_case : ∀ g, g ∈ s.games → g.channel.id ≠ game.channel.id →
        g.player1.id ≠ g.player2.id →
        ∃ n1 n2, objGet g.scores g.player1.id = some n1 ∧ objGet g.scores g.player2.id = some n2
          ∧ n1 + n2 + (if resolvesTie player choice game then
              Function.update ties game.channel.id (ties game.channel.id + 1)
            else ties) g.channel.id + 1 = g.round := by
      intro g hg hid hne
      obtain ⟨n1, n2, h1, h2, hsum⟩ := ih g hg hne
      refine ⟨n1, n2, h1, h2, ?_⟩
      split
      · rw [Function.update_noteq hid]; exact hsum
      · exact hsum
    have hfinal : (handleChoice player choice game s).1.player1.id
        ≠ (handleChoice player choice game s).1.player2.id →
        ∃ n1 n2,
          objGet (handleChoice player choice game s).1.scores
              (handleChoice player choice game s).1.player1.id = some n1
          ∧ objGet (handleChoice player choice game s).1.scores
              (handleChoice player choice game s).1.player2.id = some n2
          ∧ n1 + n2 + (if resolvesTie player choice game then
              Function.update ties game.channel.id (ties game.channel.id + 1)
            else ties) (handleChoice player choice game s).1.channel.id + 1
            = (handleChoice player choice game s).1.round := by
      intro hne
      rw [handleChoice_fst_player1, handleChoice_fst_player2] at hne
      obtain ⟨n1, n2, h1, h2, hsum⟩ := ih game (mem_of_gamesGet hreg) hne
      obtain ⟨m1, m2, hm1, hm2, hm⟩ := roundsAccounted_handleChoice_fst player choice game s
        (ties game.channel.id) n1 n2 hne h1 h2 hsum
      refine ⟨m1, m2, by simpa using hm1, by simpa using hm2, ?_⟩
      rw [handleChoice_fst_channel]
      split
      · next ht => rw [Function.update_same]; simpa [ht] using hm
      · next ht => simpa [ht] using hm
    rw [handleChoice_games] at hg
    split at hg
    · obtain ⟨hmem, hid⟩ := mem_gamesDelete hg
      rcases mem_syncGame_ne hmem with rfl | ⟨hold, hid'⟩
      · exact absurd (by simp) hid
      · exact hold_case g hold hid hne
    · rcases mem_syncGame_ne hg with rfl | ⟨hold, hid'⟩
      · exact hfinal hne
      · exact hold_case g hold (by simpa using hid') hne
  | reset message _ ih =>
    intro g hg hne
    unfold resetCommand at hg
    split at hg
    · exact ih g (mem_gamesDelete hg).1 hne
    · exact ih g hg hne

/-- C20: in every state reached from the empty registry by `startGame`,
`handleChoice` and reset, each registered session of two participants with distinct
ids has a round of at least 1 and scores that add up to at most the round minus 1,
with equality exactly when no tied round has been resolved in the session. -/
theorem reachable_round_scores (s : State) (ties : Nat → Nat) (h : ReachableWithTies s ties) :
    ∀ g ∈ s.games, g.player1.id ≠ g.player2.id →
      ∃ n1 n2, objGet g.scores g.player1.id = some n1 ∧ objGet g.scores g.player2.id = some n2
        ∧ 1 ≤ g.round ∧ n1 + n2 ≤ g.round - 1
        ∧ (n1 + n2 = g.round - 1 ↔ ties g.channel.id = 0) := by
  intro g hg hne
  obtain ⟨n1, n2, h1, h2, hsum⟩ := roundsAccounted_reachable h g hg hne
  exact ⟨n1, n2, h1, h2, by omega, by omega, by omega⟩

/-- After `startGame alice bob arena` and a round of rock against rock the session
is in round 2 at 0-0: the scores add up to less than the round minus 1, and one tie
is counted. -/
theorem reachable_round_scores_witness :
    ∃ n1 n2, objGet (sampleGame 0 0 2 []).scores (sampleGame 0 0 2 []).player1.id = some n1
      ∧ objGet (sampleGame 0 0 2 []).scores (sampleGame 0 0 2 []).player2.id = some n2
      ∧ 1 ≤ (sampleGame 0 0 2 []).round ∧ n1 + n2 ≤ (sampleGame 0 0 2 []).round - 1
      ∧ (n1 + n2 = (sampleGame 0 0 2 []).round - 1
          ↔ sampleTies (sampleGame 0 0 2 []).channel.id = 0) :=
  reachable_round_scores
    (handleChoice bob "rock" (sampleGame 0 0 1 [(1, "rock")])
      (handleChoice alice "rock" (sampleGame 0 0 1 [])
        (startGame alice bob arena State.init)).2).2
    sampleTies
    (ReachableWithTies.handleChoice bob "rock" (sampleGame 0 0 1 [(1, "rock")])
      (ReachableWithTies.handleChoice alice "rock" (sampleGame 0 0 1 [])
        (ReachableWithTies.startGame alice bob arena (ReachableWithTies.init [] []))
        (by decide))
      (by decide))
    (sampleGame 0 0 2 []) (by decide) (by decide)
end RpsBot
